import Mathlib

/-!
Verification of the EngageX annotation job queue
(`analytics/judge_quality_llm.py` and the unified challenge variant).

The Python code is shallowly embedded: Python/JSON values become the
inductive `PyVal` (floats are modeled as exact rationals, so IEEE rounding
of decimal literals is not reflected; no claim here depends on it),
database rows become Lean structures, every SQL statement of the judge
script becomes a pure function on an explicit `Store` state, and the
orchestration loop's per-item control flow becomes a total function driven
by an `Oracle` recording the outcomes of the external model calls.
-/

namespace EngageX

/-- A Python value as produced by `json` decoding (plus `None`/`bool` for
defaults).  Python floats are modeled as exact rationals; `NaN`/`Infinity`
literals (which Python's `json` would accept) are treated as decode
failures since they have no rational counterpart. -/
inductive PyVal where
  | pnone : PyVal
  | pbool : Bool → PyVal
  | pint : Int → PyVal
  | pfloat : ℚ → PyVal
  | pstr : String → PyVal
  | plist : List PyVal → PyVal
  | pdict : List (String × PyVal) → PyVal
  deriving Repr

namespace PyVal

/-- `dict.get k` on a decoded object: first (unique) binding for `k`. -/
def get : PyVal → String → Option PyVal
  | pdict l, k => (l.find? (fun p => p.1 = k)).map (·.2)
  | _, _ => none

/-- `obj.get(k, d)` with a default. -/
def getD (v : PyVal) (k : String) (d : PyVal) : PyVal := (v.get k).getD d

/-- Python truthiness of a decoded value (`bool(v)`). -/
def truthy : PyVal → Bool
  | pnone => false
  | pbool b => b
  | pint n => n ≠ 0
  | pfloat q => q ≠ 0
  | pstr s => s ≠ ""
  | plist l => !l.isEmpty
  | pdict l => !l.isEmpty

end PyVal

/-! ### `json.JSONDecoder.raw_decode` / `json.loads`

A fuel-indexed recursive-descent parser mirroring CPython's pure-Python
`json` scanner in strict mode: JSON whitespace only, strings reject raw
control characters, objects/arrays reject trailing commas, numbers follow
the `NUMBER_RE` grammar (`int` when there is no fraction/exponent, else
`float`).  Lone UTF-16 surrogates from `\uXXXX` escapes (which Python
would keep in the `str`) are replaced by U+FFFD since Lean's `Char` cannot
hold them; no theorem below evaluates the parser on surrogate input. -/

def isJsonWs (c : Char) : Bool :=
  c = ' ' || c = '\t' || c = '\n' || c = '\r'

def skipWs (cs : List Char) : List Char := cs.dropWhile isJsonWs

def digitsToNat (ds : List Char) : Nat :=
  ds.foldl (fun acc c => acc * 10 + (c.toNat - '0'.toNat)) 0

def hexVal (c : Char) : Option Nat :=
  if '0' ≤ c ∧ c ≤ '9' then some (c.toNat - '0'.toNat)
  else if 'a' ≤ c ∧ c ≤ 'f' then some (c.toNat - 'a'.toNat + 10)
  else if 'A' ≤ c ∧ c ≤ 'F' then some (c.toNat - 'A'.toNat + 10)
  else none

def parseHex4 : List Char → Option (Nat × List Char)
  | a :: b :: c :: d :: rest => do
    let x ← hexVal a
    let y ← hexVal b
    let z ← hexVal c
    let w ← hexVal d
    pure (((x * 16 + y) * 16 + z) * 16 + w, rest)
  | _ => none

/-- Make a `Char` from a code point, sending invalid scalars (surrogates)
to U+FFFD. -/
def charOfCode (n : Nat) : Char :=
  if h : n.isValidChar then Char.ofNatAux n h else '�'

/-- Body of a JSON string literal after the opening quote. -/
def parseJsonString : Nat → List Char → List Char → Option (String × List Char)
  | 0, _, _ => none
  | Nat.succ fuel, acc, cs =>
    match cs with
    | [] => none
    | '"' :: rest => some (String.mk acc.reverse, rest)
    | '\\' :: e :: rest =>
      match e with
      | '"' => parseJsonString fuel ('"' :: acc) rest
      | '\\' => parseJsonString fuel ('\\' :: acc) rest
      | '/' => parseJsonString fuel ('/' :: acc) rest
      | 'b' => parseJsonString fuel ('\x08' :: acc) rest
      | 'f' => parseJsonString fuel ('\x0c' :: acc) rest
      | 'n' => parseJsonString fuel ('\n' :: acc) rest
      | 'r' => parseJsonString fuel ('\r' :: acc) rest
      | 't' => parseJsonString fuel ('\t' :: acc) rest
      | 'u' =>
        match parseHex4 rest with
        | none => none
        | some (n, rest2) =>
          if 0xd800 ≤ n ∧ n ≤ 0xdbff then
            match rest2 with
            | '\\' :: 'u' :: rest3 =>
              match parseHex4 rest3 with
              | some (m, rest4) =>
                if 0xdc00 ≤ m ∧ m ≤ 0xdfff then
                  parseJsonString fuel
                    (charOfCode (0x10000 + (n - 0xd800) * 0x400 + (m - 0xdc00)) :: acc) rest4
                else
                  parseJsonString fuel (charOfCode m :: charOfCode n :: acc) rest4
              | none => parseJsonString fuel (charOfCode n :: acc) rest2
            | _ => parseJsonString fuel (charOfCode n :: acc) rest2
          else
            parseJsonString fuel (charOfCode n :: acc) rest2
      | _ => none
    | c :: rest =>
      if c.toNat < 0x20 then none
      else parseJsonString fuel (c :: acc) rest

/-- JSON number: `-?(0|[1-9]\d*)(\.\d+)?([eE][-+]?\d+)?`; `int` result when
neither fraction nor exponent is present, `float` (here: `ℚ`) otherwise. -/
def parseJsonNumber (cs : List Char) : Option (PyVal × List Char) :=
  let (neg, cs1) :=
    match cs with
    | '-' :: rest => (true, rest)
    | _ => (false, cs)
  let ipart : Option (List Char × List Char) :=
    match cs1 with
    | '0' :: rest => some ([ '0' ], rest)
    | c :: _ =>
      if c.isDigit ∧ c ≠ '0' then
        some (cs1.span Char.isDigit)
      else none
    | [] => none
  match ipart with
  | none => none
  | some (ids, cs2) =>
    let (fds, cs3) :=
      match cs2 with
      | '.' :: rest =>
        match rest.span Char.isDigit with
        | ([], _) => ([], cs2)
        | (ds, rest2) => (ds, rest2)
      | _ => ([], cs2)
    let epart : Option (Bool × List Char × List Char) :=
      match cs3 with
      | 'e' :: rest | 'E' :: rest =>
        let (esign, rest2) :=
          match rest with
          | '+' :: r => (false, r)
          | '-' :: r => (true, r)
          | _ => (false, rest)
        match rest2.span Char.isDigit with
        | ([], _) => none
        | (ds, rest3) => some (esign, ds, rest3)
      | _ => none
    let cs4 := match epart with
      | none => cs3
      | some (_, _, rest) => rest
    if fds = [] ∧ epart = none then
      let n : Int := Int.ofNat (digitsToNat ids)
      some (PyVal.pint (if neg then -n else n), cs4)
    else
      let mantissa : ℚ := (digitsToNat (ids ++ fds) : ℚ) / (10 : ℚ) ^ fds.length
      let withExp : ℚ :=
        match epart with
        | none => mantissa
        | some (esign, eds, _) =>
          if esign then mantissa / (10 : ℚ) ^ digitsToNat eds
          else mantissa * (10 : ℚ) ^ digitsToNat eds
      some (PyVal.pfloat (if neg then -withExp else withExp), cs4)

/-- Insert into a decoded object the way a Python `dict` literal build
does: a repeated key overwrites in place, a new key appends. -/
def dictInsert (l : List (String × PyVal)) (k : String) (v : PyVal) :
    List (String × PyVal) :=
  if l.any (fun p => p.1 = k) then
    l.map (fun p => if p.1 = k then (k, v) else p)
  else l ++ [(k, v)]

mutual

/-- JSON value, starting exactly at the current position (no leading
whitespace skip, as in `raw_decode`). -/
def parseValue : Nat → List Char → Option (PyVal × List Char)
  | 0, _ => none
  | Nat.succ fuel, cs =>
    match cs with
    | '{' :: rest => parseObjBody fuel [] (skipWs rest)
    | '[' :: rest => parseArrBody fuel [] (skipWs rest)
    | '"' :: rest => (parseJsonString (rest.length + 1) [] rest).map
        (fun p => (PyVal.pstr p.1, p.2))
    | 't' :: 'r' :: 'u' :: 'e' :: rest => some (PyVal.pbool true, rest)
    | 'f' :: 'a' :: 'l' :: 's' :: 'e' :: rest => some (PyVal.pbool false, rest)
    | 'n' :: 'u' :: 'l' :: 'l' :: rest => some (PyVal.pnone, rest)
    | _ => parseJsonNumber cs

/-- Members of an object, after `{` and leading whitespace; `acc` holds
the members parsed so far. -/
def parseObjBody : Nat → List (String × PyVal) → List Char →
    Option (PyVal × List Char)
  | 0, _, _ => none
  | Nat.succ fuel, acc, cs =>
    match cs with
    | '}' :: rest =>
      if acc.isEmpty then some (PyVal.pdict [], rest) else none
    | '"' :: rest =>
      match parseJsonString (rest.length + 1) [] rest with
      | none => none
      | some (k, rest2) =>
        match skipWs rest2 with
        | ':' :: rest3 =>
          match parseValue fuel (skipWs rest3) with
          | none => none
          | some (v, rest4) =>
            match skipWs rest4 with
            | ',' :: rest5 => parseObjBody fuel (dictInsert acc k v) (skipWs rest5)
            | '}' :: rest5 => some (PyVal.pdict (dictInsert acc k v), rest5)
            | _ => none
        | _ => none
    | _ => none

/-- Elements of an array, after `[` and leading whitespace. -/
def parseArrBody : Nat → List PyVal → List Char → Option (PyVal × List Char)
  | 0, _, _ => none
  | Nat.succ fuel, acc, cs =>
    match cs with
    | ']' :: rest =>
      if acc.isEmpty then some (PyVal.plist [], rest) else none
    | _ =>
      match parseValue fuel cs with
      | none => none
      | some (v, rest) =>
        match skipWs rest with
        | ',' :: rest2 => parseArrBody fuel (acc ++ [v]) (skipWs rest2)
        | ']' :: rest2 => some (PyVal.plist (acc ++ [v]), rest2)
        | _ => none

end

/-- `json.JSONDecoder().raw_decode(s)`: decode one value at position 0,
returning the value and the index just past it; no leading whitespace is
skipped. -/
def rawDecode (s : String) : Option (PyVal × Nat) :=
  let cs := s.toList
  match parseValue (2 * cs.length + 8) cs with
  | some (v, rest) => some (v, cs.length - rest.length)
  | none => none

/-- `json.loads(s)`: skip leading whitespace, decode one value, require
only whitespace after it. -/
def jsonLoads (s : String) : Option PyVal :=
  let cs := skipWs s.toList
  match parseValue (2 * cs.length + 8) cs with
  | some (v, rest) => if skipWs rest = [] then some v else none
  | none => none

/-- `raw_decode` on a character list (used when scanning suffixes). -/
def rawDecodeL (cs : List Char) : Option (PyVal × List Char) :=
  parseValue (2 * cs.length + 8) cs

/-- `json.loads` on a character list. -/
def jsonLoadsL (cs : List Char) : Option PyVal :=
  let cs2 := skipWs cs
  match parseValue (2 * cs2.length + 8) cs2 with
  | some (v, rest) => if skipWs rest = [] then some v else none
  | none => none

/-! ### String utilities for the repair pipeline -/

/-- The backtick character (written by code point to keep source plain). -/
def backtick : Char := Char.ofNat 96

/-- An apostrophe as a one-character string. -/
def aposS : String := String.singleton (Char.ofNat 39)

/-- First index at which `pat` occurs in `cs` (leftmost match of a literal
pattern), or `none`. -/
def findSub (pat cs : List Char) : Option Nat :=
  (List.range (cs.length + 1)).find? (fun i => pat.isPrefixOf (cs.drop i))

/-- `str.replace(pat, repl)`: non-overlapping left-to-right replacement. -/
def replaceSub : Nat → List Char → List Char → List Char → List Char
  | 0, _, _, cs => cs
  | Nat.succ fuel, pat, repl, cs =>
    match findSub pat cs with
    | none => cs
    | some p => cs.take p ++ repl ++ replaceSub fuel pat repl (cs.drop (p + pat.length))

/-- `re.sub(r"```.*?```", " ", s, flags=re.S)`: each leftmost-shortest
fenced block becomes one space; scanning resumes after the match. -/
def removeFenceBlocks : Nat → List Char → List Char
  | 0, cs => cs
  | Nat.succ fuel, cs =>
    let fence := "```".toList
    match findSub fence cs with
    | none => cs
    | some p =>
      let after := cs.drop (p + 3)
      match findSub fence after with
      | none => cs
      | some q => cs.take p ++ [' '] ++ removeFenceBlocks fuel (after.drop (q + 3))

/-- Python's `\s` / `str.isspace` character class (ASCII and the Unicode
space code points; the rarely-seen `Zl`/`Zp` members are included). -/
def isPySpace (c : Char) : Bool :=
  c = ' ' || c = '\t' || c = '\n' || c = '\r' || c = '\x0b' || c = '\x0c' ||
  (0x1c ≤ c.toNat && c.toNat ≤ 0x1f) || c.toNat = 0x85 || c.toNat = 0xa0 ||
  c.toNat = 0x1680 || (0x2000 ≤ c.toNat && c.toNat ≤ 0x200a) ||
  c.toNat = 0x2028 || c.toNat = 0x2029 || c.toNat = 0x202f ||
  c.toNat = 0x205f || c.toNat = 0x3000

/-- `str.strip()`. -/
def pyStrip (cs : List Char) : List Char :=
  ((cs.dropWhile isPySpace).reverse.dropWhile isPySpace).reverse

/-- Characters removed by `re.sub(r"[\x00-\x08\x0b-\x0c\x0e-\x1f\x7f-\x9f]", "", s)`. -/
def isStrippedCtrl (c : Char) : Bool :=
  c.toNat ≤ 0x08 || c.toNat = 0x0b || c.toNat = 0x0c ||
  (0x0e ≤ c.toNat && c.toNat ≤ 0x1f) || (0x7f ≤ c.toNat && c.toNat ≤ 0x9f)

/-- `re.sub(r",\s*X", "X", s)` for a closing bracket `X`: one left-to-right
pass, continuing after each replacement. -/
def subCommaClose (close : Char) : Nat → List Char → List Char
  | 0, cs => cs
  | Nat.succ fuel, cs =>
    match cs with
    | [] => []
    | ',' :: rest =>
      let rest2 := rest.dropWhile isPySpace
      match rest2 with
      | c :: tail =>
        if c = close then close :: subCommaClose close fuel tail
        else ',' :: subCommaClose close fuel rest
      | [] => ',' :: subCommaClose close fuel rest
    | c :: rest => c :: subCommaClose close fuel rest

/-- `re.sub(r"\s+", " ", s)`: collapse every whitespace run to one space. -/
def collapseWs : Nat → List Char → List Char
  | 0, cs => cs
  | Nat.succ fuel, cs =>
    match cs with
    | [] => []
    | c :: rest =>
      if isPySpace c then ' ' :: collapseWs fuel (rest.dropWhile isPySpace)
      else c :: collapseWs fuel rest

/-- The suffixes of `cs` that start with `{`, in order of position
(`re.finditer` over the brace positions, each taken to end of text). -/
def braceSuffixes (cs : List Char) : List (List Char) :=
  cs.tails.filter (fun t => t.head? = some '{')

/-- Last index of `c` in `cs` (`str.rfind` for a single character). -/
def rfindChar (c : Char) (cs : List Char) : Option Nat :=
  ((List.range cs.length).filter (fun i => cs.get? i = some c)).getLast?

/-! ### `judge_quality_llm.py`: JSON extract and repair -/

/-- `try_find_json_with_decoder`: scan every `{` position and return the
first strict `raw_decode` success. -/
def try_find_json_with_decoder (text : String) : Option PyVal :=
  (braceSuffixes text.toList).findSome? (fun t => (rawDecodeL t).map (·.1))

/-- `repair_json_text`: strip code fences and backticks, normalize the
(mojibake) smart-quote sequences that appear literally in the source,
remove control characters, then for each `{` position truncate at the last
`}`, drop newline characters and trailing commas, collapse whitespace, and
try `json.loads`. -/
def repair_json_text (gen_text : String) : Option PyVal :=
  let s0 := gen_text.toList
  let s1 := removeFenceBlocks s0.length s0
  let s2 := s1.map (fun c => if c = backtick then ' ' else c)
  let s3 := replaceSub (s2.length + 1) "‚Äú".toList "\"".toList s2
  let s4 := replaceSub (s3.length + 1) "‚Äù".toList "\"".toList s3
  let s5 := replaceSub (s4.length + 1) "¬´".toList "\"".toList s4
  let s6 := replaceSub (s5.length + 1) "¬ª".toList "\"".toList s5
  let s7 := replaceSub (s6.length + 1) "‚Äô".toList aposS.toList s6
  let s := s7.filter (fun c => !isStrippedCtrl c)
  (braceSuffixes s).findSome? (fun chunk =>
    let candidate :=
      match rfindChar '}' chunk with
      | some last => chunk.take (last + 1)
      | none => chunk
    let c1 := candidate.map (fun c => if c = '\n' then ' ' else c)
    let c2 := subCommaClose '}' c1.length c1
    let c3 := subCommaClose ']' c2.length c2
    let c4 := pyStrip (collapseWs c3.length c3)
    jsonLoadsL c4)

/-- `extract_or_recover_json`: strict scan first, then the repair pass. -/
def extract_or_recover_json (gen_text : String) : Option PyVal :=
  match try_find_json_with_decoder gen_text with
  | some parsed => some parsed
  | none => repair_json_text gen_text

/-! ### `judge_quality_llm.py`: heuristic fallback and field parsing -/

/-- Auxiliary metrics joined for an item (floats as exact rationals). -/
structure Metrics where
  views : Int
  forwards : Int
  reactions_sum : Int
  comments_count : Int
  engagement_rate : ℚ
  deriving Repr, DecidableEq

/-- `heuristic_fallback_score(metrics)`: deterministic score from the
auxiliary metrics alone. -/
def heuristic_fallback_score (m : Metrics) : Int :=
  if m.views ≥ 500 ∨ m.engagement_rate > 1/20 then 80
  else if m.views ≥ 100 ∨ m.engagement_rate > 1/50 then 55
  else if m.views < 10 then 10
  else 35

/-- Python `float(str)` on the strings `float` accepts (`inf`/`nan`
spellings and digit underscores are treated as failures: they have no
rational counterpart / do not occur in decoded JSON). -/
def pyFloatStr (s : String) : Option ℚ :=
  let cs := pyStrip s.toList
  let (neg, cs1) :=
    match cs with
    | '-' :: rest => (true, rest)
    | '+' :: rest => (false, rest)
    | _ => (false, cs)
  let (ids, csA) := cs1.span Char.isDigit
  let (fds, csB) :=
    match csA with
    | '.' :: rest => rest.span Char.isDigit
    | _ => ([], csA)
  if ids = [] ∧ fds = [] then none
  else
    let mantissa : ℚ := (digitsToNat (ids ++ fds) : ℚ) / (10 : ℚ) ^ fds.length
    let signed : ℚ → ℚ := fun q => if neg then -q else q
    match csB with
    | [] => some (signed mantissa)
    | 'e' :: rest | 'E' :: rest =>
      let (esign, rest2) :=
        match rest with
        | '+' :: r => (false, r)
        | '-' :: r => (true, r)
        | _ => (false, rest)
      match rest2.span Char.isDigit with
      | ([], _) => none
      | (ds, rest3) =>
        if rest3 = [] then
          some (signed (if esign then mantissa / (10 : ℚ) ^ digitsToNat ds
                        else mantissa * (10 : ℚ) ^ digitsToNat ds))
        else none
    | _ => none

/-- Python `float(x)` on a decoded value: numbers convert, `bool` maps to
0/1, numeric strings parse, everything else raises (`none`). -/
def pyFloat : PyVal → Option ℚ
  | PyVal.pint n => some (n : ℚ)
  | PyVal.pfloat q => some q
  | PyVal.pbool b => some (if b then 1 else 0)
  | PyVal.pstr s => pyFloatStr s
  | _ => none

mutual

/-- Python `repr` of a decoded value (float and string-escape rendering is
approximated; no theorem below depends on its exact text). -/
def pyRepr : PyVal → String
  | PyVal.pnone => "None"
  | PyVal.pbool b => if b then "True" else "False"
  | PyVal.pint n => toString n
  | PyVal.pfloat q => toString q
  | PyVal.pstr s => aposS ++ s ++ aposS
  | PyVal.plist l => "[" ++ String.intercalate ", " (pyReprList l) ++ "]"
  | PyVal.pdict l => "\x7b" ++ String.intercalate ", " (pyReprDict l) ++ "\x7d"

def pyReprList : List PyVal → List String
  | [] => []
  | v :: rest => pyRepr v :: pyReprList rest

def pyReprDict : List (String × PyVal) → List String
  | [] => []
  | (k, v) :: rest => (aposS ++ k ++ aposS ++ ": " ++ pyRepr v) :: pyReprDict rest

end

/-- Python `str` of a decoded value. -/
def pyStr : PyVal → String
  | PyVal.pstr s => s
  | v => pyRepr v

/-! ### `judge_quality_llm.py`: per-item inference (`infer_batch`) -/

/-- One input item of `infer_batch` (payload plus joined metrics). -/
structure Item where
  post_id : Nat
  channel : String
  text : String
  metrics : Metrics
  deriving Repr

/-- One result entry appended by `infer_batch` (the `labels` sub-dict is
flattened into its four fixed keys). -/
structure Entry where
  score : ℚ
  is_good : Bool
  reasons : List PyVal
  clarity : ℚ
  usefulness : ℚ
  engagement : ℚ
  ethics : ℚ
  raw_output : String
  inference_time_s : ℚ
  deriving Repr

/-- Outcome of the generation call for one item: success (possibly after
the `TypeError` minimal retry), failure of the retry, or any other
exception. -/
inductive GenOutcome where
  | ok : GenOutcome
  | retryFailed : GenOutcome
  | exn : GenOutcome
  deriving Repr, DecidableEq

/-- Record of the external, non-deterministic effects for one item: the
tokenizer, the generation call and its decoded text, and the optional
secondary-extraction generation text (`none` when that call raised). -/
structure Oracle where
  tokenizationOk : Bool
  gen : GenOutcome
  decodeOk : Bool
  genText : String
  secondaryText : Option String
  time : ℚ
  deriving Repr

/-- The fallback result entry built in each `except`/bad-JSON branch. -/
def fallbackEntry (m : Metrics) (tag : String) (raw : String) (t : ℚ) : Entry :=
  let fb := heuristic_fallback_score m
  { score := (fb : ℚ), is_good := decide (fb ≥ 50), reasons := [PyVal.pstr tag],
    clarity := 0, usefulness := 0, engagement := 0, ethics := 0,
    raw_output := raw, inference_time_s := t }

/-- `extract_with_model`: secondary generation call whose output is fed
back through `extract_or_recover_json`; `none` when the call raised. -/
def extract_with_model (o : Oracle) : Option PyVal :=
  match o.secondaryText with
  | none => none
  | some t => extract_or_recover_json t

/-- The `try` block that parses the decoded JSON's fields into a result
entry; `none` models the `except` branch (a failed `float()` conversion
or a non-dict `labels`). -/
def parse_js_entry (js : PyVal) (raw_out : String) (t : ℚ) : Option Entry := do
  let score ← pyFloat (js.getD "score" (PyVal.pint 0))
  let is_good := (js.getD "is_good" (PyVal.pbool false)).truthy
  let reasons := js.getD "reasons" (PyVal.plist [])
  let labels := js.getD "labels" (PyVal.pdict [])
  let ldict ← match labels with
    | PyVal.pdict l => some (PyVal.pdict l)
    | _ => none
  let clarity ← pyFloat (ldict.getD "clarity" (PyVal.pint 0))
  let usefulness ← pyFloat (ldict.getD "usefulness" (PyVal.pint 0))
  let engagement ← pyFloat (ldict.getD "engagement" (PyVal.pint 0))
  let ethics ← pyFloat (ldict.getD "ethics" (PyVal.pint 0))
  some
    { score := max 0 (min 100 score)
      is_good := is_good
      reasons :=
        match reasons with
        | PyVal.plist l => l.take 6
        | r => [PyVal.pstr (pyStr r)]
      clarity := clarity, usefulness := usefulness
      engagement := engagement, ethics := ethics
      raw_output := if raw_out = "" then "" else raw_out.take 2000
      inference_time_s := t }

/-- The body of `infer_batch`'s loop for one item: every branch produces
exactly one result entry. -/
def infer_item (o : Oracle) (it : Item) : Entry :=
  let metrics := it.metrics
  if ¬ o.tokenizationOk then
    fallbackEntry metrics "tokenization_failed_fallback" "" 0
  else
    match o.gen with
    | GenOutcome.retryFailed => fallbackEntry metrics "generation_failed_fallback" "" 0
    | GenOutcome.exn => fallbackEntry metrics "generation_exception_fallback" "" 0
    | GenOutcome.ok =>
      let gen_text := if o.decodeOk then o.genText else ""
      let raw_out := gen_text
      let js0 := extract_or_recover_json gen_text
      let jsTag : Option PyVal × Option String :=
        match js0 with
        | some j => (some j, none)
        | none =>
          match extract_with_model o with
          | some j => (some j, some "recovered_by_model")
          | none => (none, some "bad_json")
      match jsTag.1 with
      | none =>
        fallbackEntry metrics "bad_json_fallback"
          (if raw_out = "" then "" else raw_out.take 2000) o.time
      | some j =>
        match parse_js_entry j raw_out o.time with
        | some e =>
          { e with
            reasons := e.reasons ++
              (match jsTag.2 with
               | some tg => [PyVal.pstr tg]
               | none => []) }
        | none =>
          fallbackEntry metrics "bad_json_parse_fallback"
            (if raw_out = "" then "" else raw_out.take 2000) o.time

/-- `infer_batch` from position `i`: one entry appended per item, in input
order; the `i`-th item sees the `i`-th external outcome. -/
def infer_batch_from (oracles : Nat → Oracle) : Nat → List Item → List Entry
  | _, [] => []
  | i, it :: rest => infer_item (oracles i) it :: infer_batch_from oracles (i + 1) rest

/-- `infer_batch(items)`. -/
def infer_batch (oracles : Nat → Oracle) (items : List Item) : List Entry :=
  infer_batch_from oracles 0 items

/-! ### The job store

Rows of `posts`, `post_quality`, `clean_posts`, `reactions` and `comments`
as an explicit state.  Timestamps are integers (minutes); nullable columns
are `Option`s. -/

/-- `posts.processing_status`: `'new' | 'processing' | 'done' | 'error'`. -/
inductive Status where
  | new : Status
  | processing : Status
  | done : Status
  | error : Status
  deriving Repr, DecidableEq

/-- One row of `posts` (the columns the judge script touches). -/
structure Post where
  id : Nat
  channel_username : String
  post_text : Option String
  views : Option Int
  forwards : Option Int
  processing_status : Status
  processor_pid : Option Int
  processing_started_at : Option Int
  attempts : Option Int
  deriving Repr, DecidableEq

/-- The `signals` jsonb payload, modeled structurally (its `json.dumps`
serialization is injective on this data, so equality of payloads is
equality of these records). -/
structure Signals where
  judge : String
  model_version : String
  score : ℚ
  is_good : Bool
  reasons : List PyVal
  clarity : ℚ
  usefulness : ℚ
  engagement : ℚ
  ethics : ℚ
  metrics : Metrics
  raw_output : String
  inference_time_s : ℚ
  deriving Repr

/-- One row of `post_quality` (unique on `post_id`). -/
structure QualityRow where
  post_id : Nat
  channel_username : String
  quality_score : ℚ
  is_good : Bool
  signals : Signals
  gen_status : String
  updated_at : Int
  deriving Repr

/-- The relational state the judge script reads and writes. -/
structure Store where
  posts : List Post
  post_quality : List QualityRow
  clean_posts : List (Nat × Option String)
  reactions : List (Nat × Int)
  comments : List Nat
  deriving Repr

/-- `EXISTS (SELECT 1 FROM post_quality pq WHERE pq.post_id = p.id)`. -/
def hasQuality (s : Store) (pid : Nat) : Bool :=
  s.post_quality.any (fun q => q.post_id = pid)

/-- A `posts` row eligible for claiming: `processing_status = 'new'` and
no `post_quality` row yet. -/
def claimable (s : Store) (p : Post) : Bool :=
  p.processing_status = Status.new && !hasQuality s p.id

/-- Step 1 of `atomic_fetch_and_mark`: the ids selected by
`SELECT id .. WHERE .. ORDER BY p.id LIMIT batch FOR UPDATE SKIP LOCKED`
(no concurrent locker is modeled: the transaction is the critical
section). -/
def claimIds (s : Store) (batch : Nat) : List Nat :=
  (List.insertionSort (· ≤ ·) ((s.posts.filter (claimable s)).map (·.id))).take batch

/-- Step 2: `UPDATE posts SET processing_status='processing',
processor_pid=$1, processing_started_at=now() WHERE id = ANY($2)`. -/
def markProcessing (posts : List Post) (ids : List Nat) (wpid : Int) (now : Int) :
    List Post :=
  posts.map (fun p =>
    if p.id ∈ ids then
      { p with processing_status := Status.processing,
               processor_pid := some wpid,
               processing_started_at := some now }
    else p)

/-- `COALESCE(cp.clean_text, p.post_text)` under the left join. -/
def coalesceText (s : Store) (p : Post) : Option String :=
  match s.clean_posts.find? (fun c => c.1 = p.id) with
  | some (_, some t) => some t
  | some (_, none) => p.post_text
  | none => p.post_text

/-- `SUM(reaction_count)` over the `reactions` rows of a post (absent
group ⇒ dictionary default 0). -/
def reactionsSum (s : Store) (pid : Nat) : Int :=
  ((s.reactions.filter (fun r => r.1 = pid)).map (·.2)).sum

/-- `COUNT(*)` over the `comments` rows of a post. -/
def commentsCount (s : Store) (pid : Nat) : Int :=
  ((s.comments.filter (fun c => c = pid)).length : Int)

/-- `round(x, 6)` (Python rounds floats half-to-even; on the exact
rationals modeled here `round` differs only at exact half-ulp points,
which no claim exercises). -/
def round6 (q : ℚ) : ℚ := (round (q * 1000000) : ℚ) / 1000000

/-- `(reactions_sum + comments_count) / max(1, views) if views > 0 else 0.0`. -/
def engagementRate (r c v : Int) : ℚ :=
  if v > 0 then ((r + c : Int) : ℚ) / ((max 1 v : Int) : ℚ) else 0

/-- `(r["text"] or "").strip() or " "`. -/
def rowText (t : Option String) : String :=
  let s := String.mk (pyStrip (t.getD "").toList)
  if s = "" then " " else s

/-- One detail row returned to the orchestration loop, with its joined
auxiliary metrics. -/
structure ItemRow where
  id : Nat
  channel_username : String
  text : String
  views : Int
  forwards : Int
  reactions_sum : Int
  comments_count : Int
  engagement_rate : ℚ
  deriving Repr, DecidableEq

/-- Step 3: the detail row for one selected post. -/
def mkItemRow (s : Store) (p : Post) : ItemRow :=
  let views := p.views.getD 0
  let rsum := reactionsSum s p.id
  let ccount := commentsCount s p.id
  { id := p.id
    channel_username := p.channel_username
    text := rowText (coalesceText s p)
    views := views
    forwards := p.forwards.getD 0
    reactions_sum := rsum
    comments_count := ccount
    engagement_rate := round6 (engagementRate rsum ccount views) }

/-- `atomic_fetch_and_mark(conn, batch, pid)`: select up to `batch`
claimable ids in id order, flip them to `processing` stamping the worker
pid and the current timestamp, and return their joined detail rows
(empty selection returns `[]` without touching the store). -/
def atomic_fetch_and_mark (s : Store) (batch : Nat) (wpid : Int) (now : Int) :
    List ItemRow × Store :=
  let ids := claimIds s batch
  if ids.isEmpty then ([], s)
  else
    let s2 : Store := { s with posts := markProcessing s.posts ids wpid now }
    let rows := ids.filterMap (fun i =>
      (s2.posts.find? (fun p => p.id = i)).map (mkItemRow s2))
    (rows, s2)

/-- `UPSERT_SQL`: insert the row, or on `post_id` conflict update
`quality_score`, `is_good`, `signals`, `gen_status`, `updated_at`
(`channel_username` is not in the update list). -/
def upsertQuality (table : List QualityRow) (r : QualityRow) : List QualityRow :=
  if table.any (fun q => q.post_id = r.post_id) then
    table.map (fun q =>
      if q.post_id = r.post_id then
        { q with quality_score := r.quality_score, is_good := r.is_good,
                 signals := r.signals, gen_status := r.gen_status,
                 updated_at := r.updated_at }
      else q)
  else table ++ [r]

/-- The `WHERE` test of `RESET_STUCK_SQL`: in `'processing'` and started
strictly more than `timeout` minutes ago (a NULL timestamp compares
false). -/
def stuck (timeout now : Int) (p : Post) : Bool :=
  p.processing_status = Status.processing &&
    (match p.processing_started_at with
     | some t => t < now - timeout
     | none => false)

/-- `RESET_STUCK_SQL`: matched rows go back to `'new'` with
`processor_pid` and `processing_started_at` cleared; `RETURNING id`. -/
def reset_stuck (s : Store) (timeout now : Int) : List Nat × Store :=
  let ids := (s.posts.filter (stuck timeout now)).map (·.id)
  (ids,
   { s with posts := s.posts.map (fun p =>
      if stuck timeout now p then
        { p with processing_status := Status.new,
                 processor_pid := none,
                 processing_started_at := none }
      else p) })

/-! ### The orchestration loop's commit phase (`main`) -/

/-- The `inputs` element `main` builds from a fetched detail row. -/
def itemOfRow (r : ItemRow) : Item :=
  { post_id := r.id
    channel := r.channel_username
    text := r.text
    metrics :=
      { views := r.views, forwards := r.forwards,
        reactions_sum := r.reactions_sum, comments_count := r.comments_count,
        engagement_rate := r.engagement_rate } }

/-- The `signals` payload `main` assembles for one judged item. -/
def mkSignals (modelVersion : String) (it : Item) (res : Entry) : Signals :=
  { judge := "llm"
    model_version := modelVersion
    score := res.score
    is_good := res.is_good
    reasons := res.reasons
    clarity := res.clarity, usefulness := res.usefulness
    engagement := res.engagement, ethics := res.ethics
    metrics := it.metrics
    raw_output := res.raw_output.take 2000
    inference_time_s := res.inference_time_s }

/-- The upsert tuple for one judged item (`gen_status` is always `'ok'`,
as the source comment states). -/
def mkQualityRow (modelVersion : String) (now : Int) (it : Item) (res : Entry) :
    QualityRow :=
  { post_id := it.post_id
    channel_username := it.channel
    quality_score := res.score
    is_good := res.is_good
    signals := mkSignals modelVersion it res
    gen_status := "ok"
    updated_at := now }

/-- `r in ("bad_json", "bad_json_fallback", "tokenization_failed_fallback")`
for one element of `signals["reasons"]` (a non-string never equals a
string in Python). -/
def isBumpReason : PyVal → Bool
  | PyVal.pstr s =>
    s = "bad_json" || s = "bad_json_fallback" || s = "tokenization_failed_fallback"
  | _ => false

/-- `reasons and any(r in (...) for r in reasons)`: the item goes to the
attempt-bump path instead of `done`. -/
def bumpCondition (res : Entry) : Bool :=
  !res.reasons.isEmpty && res.reasons.any isBumpReason

/-- `UPDATE posts SET processing_status='done', processing_started_at=NULL,
processor_pid=NULL WHERE id = ANY($1)`. -/
def markDone (posts : List Post) (ids : List Nat) : List Post :=
  posts.map (fun p =>
    if p.id ∈ ids then
      { p with processing_status := Status.done,
               processing_started_at := none,
               processor_pid := none }
    else p)

/-- The terminal-status update of the bump path: set the status and clear
owner and claim timestamp in one statement. -/
def setTerminal (posts : List Post) (bid : Nat) (st : Status) : List Post :=
  posts.map (fun p =>
    if p.id = bid then
      { p with processing_status := st,
               processing_started_at := none,
               processor_pid := none }
    else p)

/-- `UPDATE posts SET attempts = COALESCE(attempts,0) + 1 WHERE id = $1`,
as a per-row function. -/
def bumpF (bid : Nat) (p : Post) : Post :=
  if p.id = bid then { p with attempts := some (p.attempts.getD 0 + 1) } else p

/-- One iteration of the bump loop for `bid`: increment
`attempts = COALESCE(attempts,0) + 1`, read it back, and mark the row
`'error'` at the budget or `'new'` below it. -/
def bumpOne (maxAttempts : Int) (posts : List Post) (bid : Nat) : List Post :=
  let posts1 := posts.map (bumpF bid)
  match posts1.find? (fun p => p.id = bid) with
  | none => posts1
  | some p =>
    let attempts_now := p.attempts.getD 0
    if attempts_now ≥ maxAttempts then setTerminal posts1 bid Status.error
    else setTerminal posts1 bid Status.new

/-- The commit phase of one `main` iteration: write every upsert in order,
mark the non-bump items `'done'`, then run the bump loop sequentially. -/
def commit_results (s : Store) (modelVersion : String) (maxAttempts : Int)
    (now : Int) (pairs : List (Item × Entry)) : Store :=
  let upserts := pairs.map (fun pr => mkQualityRow modelVersion now pr.1 pr.2)
  let table2 := upserts.foldl upsertQuality s.post_quality
  let done_ids := (pairs.filter (fun pr => !bumpCondition pr.2)).map (·.1.post_id)
  let bump_ids := (pairs.filter (fun pr => bumpCondition pr.2)).map (·.1.post_id)
  let posts1 := if done_ids.isEmpty then s.posts else markDone s.posts done_ids
  let posts2 := bump_ids.foldl (bumpOne maxAttempts) posts1
  { s with post_quality := table2, posts := posts2 }

/-- One full iteration of `main`'s while loop: claim a batch, infer, and
commit (the zip of items with results truncates at the shorter list, as
Python's `zip` does). -/
def loopIteration (s : Store) (oracles : Nat → Oracle) (batch : Nat) (wpid : Int)
    (nowClaim nowCommit : Int) (modelVersion : String) (maxAttempts : Int) : Store :=
  let fetched := atomic_fetch_and_mark s batch wpid nowClaim
  if fetched.1.isEmpty then fetched.2
  else
    let inputs := fetched.1.map itemOfRow
    let judged := infer_batch oracles inputs
    commit_results fetched.2 modelVersion maxAttempts nowCommit (inputs.zip judged)

/-- The statement-level store operations the judge script performs; used
to state the owner/status invariant over every reachable state. -/
inductive StoreOp where
  | claim : Nat → Int → Int → StoreOp
  | sweep : Int → Int → StoreOp
  | commit : String → Int → Int → List (Item × Entry) → StoreOp

/-- Apply one operation to the store, dropping the returned rows. -/
def applyOp (s : Store) : StoreOp → Store
  | StoreOp.claim batch wpid now => (atomic_fetch_and_mark s batch wpid now).2
  | StoreOp.sweep timeout now => (reset_stuck s timeout now).2
  | StoreOp.commit mv maxA now pairs => commit_results s mv maxA now pairs

/-- Apply a sequence of operations in order. -/
def applyOps (s : Store) (ops : List StoreOp) : Store :=
  ops.foldl applyOp s

/-- Operations performed by the claim protocol or the sweeper (the two
mechanisms the retry-budget claim quantifies over). -/
def claimOrSweep : StoreOp → Prop
  | StoreOp.claim _ _ _ => True
  | StoreOp.sweep _ _ => True
  | StoreOp.commit _ _ _ _ => False

/-- The per-row owner invariant: `processor_pid` and
`processing_started_at` are non-null exactly on `'processing'` rows. -/
def postOwnerInv (p : Post) : Prop :=
  (p.processor_pid ≠ none ↔ p.processing_status = Status.processing) ∧
  (p.processing_started_at ≠ none ↔ p.processing_status = Status.processing)

instance (p : Post) : Decidable (postOwnerInv p) := by
  unfold postOwnerInv; infer_instance

/-- The data-model invariant over the whole store. -/
def ownerInv (s : Store) : Prop :=
  ∀ p ∈ s.posts, postOwnerInv p

instance (s : Store) : Decidable (ownerInv s) := by
  unfold ownerInv; infer_instance

/-! ### `autofill_writer_challenges_unified.py`: `extract_json`

The unified challenge extractor validates required fields before
accepting a decoded record. -/

/-- The record `extract_json` returns (`week_goal` is optional, the other
three fields are required non-empty). -/
structure ChallengeRec where
  week_goal : String
  goal : String
  topic_brief : String
  final_post : String
  deriving Repr, DecidableEq

/-- `_cut_first_json_block`: from the first `{`, the prefix up to the
brace-depth-balancing `}` if one exists, otherwise the whole text. -/
def balancedLen (depth : Int) (i : Nat) : List Char → Option Nat
  | [] => none
  | c :: rest =>
    let d := if c = '{' then depth + 1 else if c = '}' then depth - 1 else depth
    if c = '}' ∧ d = 0 then some (i + 1) else balancedLen d (i + 1) rest

/-- `_cut_first_json_block(text)`. -/
def cut_first_json_block (cs : List Char) : List Char :=
  match cs.findIdx? (fun c => c = '{') with
  | none => cs
  | some start =>
    let rest := cs.drop start
    match balancedLen 0 0 rest with
    | some len => rest.take len
    | none => cs

/-- `str(obj.get(k, "") or "").strip()`. -/
def strFieldOf (obj : PyVal) (k : String) : String :=
  let v := obj.getD k (PyVal.pstr "")
  let v2 := if v.truthy then v else PyVal.pstr ""
  String.mk (pyStrip (pyStr v2).toList)

/-- Truncate `final_post` at each stop marker in order, stripping after
each cut. -/
def applyStoppers (s : String) : String :=
  ["```", "对不起", "```json", "```JSON"].foldl (fun acc st =>
    match findSub st.toList acc.toList with
    | some idx => String.mk (pyStrip (acc.toList.take idx))
    | none => acc) s

/-- The `isinstance(obj, dict)` body of the decode loop: `none` when the
decoded value is not a dict (continue scanning), `some none` when a
required field is missing or empty (return `None` from the whole
function), `some (some r)` for an accepted record. -/
def stage1Check (obj : PyVal) : Option (Option ChallengeRec) :=
  match obj with
  | PyVal.pdict l =>
    let o := PyVal.pdict l
    let goal := strFieldOf o "goal"
    let brief := strFieldOf o "topic_brief"
    let final0 := strFieldOf o "final_post"
    let final := applyStoppers final0
    if goal = "" ∨ brief = "" ∨ final = "" then some none
    else some (some
      { week_goal := strFieldOf o "week_goal"
        goal := goal, topic_brief := brief, final_post := final })
  | _ => none

/-- The decode loop of `extract_json`: outer `none` means the scan was
exhausted (fall through to the regex stage); `some none` means a decoded
record had an empty required field, which returns `None` from the whole
function; `some (some r)` is an accepted record. -/
def stage1Scan : List (List Char) → Option (Option ChallengeRec)
  | [] => none
  | t :: rest =>
    match rawDecodeL t with
    | none => stage1Scan rest
    | some (obj, _) =>
      match stage1Check obj with
      | some res => some res
      | none => stage1Scan rest

/-- UTF-8 bytes of a string, as naturals. -/
def utf8Bytes (s : String) : List Nat :=
  s.toUTF8.toList.map (·.toNat)

def isOctal (c : Char) : Bool := '0' ≤ c ∧ c ≤ '7'

/-- `bytes(s, "utf-8").decode("unicode_escape")` on the byte list (bytes
read as Latin-1 code points, escape sequences interpreted; `\N{...}`
named escapes are treated as a failure, and lone surrogates map to
U+FFFD — neither occurs in any input a theorem below evaluates). -/
def unescapeBytes : Nat → List Nat → Option (List Char)
  | 0, _ => none
  | Nat.succ fuel, bs =>
    match bs with
    | [] => some []
    | 92 :: rest =>
      match rest with
      | [] => none
      | e :: r2 =>
        let c : Char := charOfCode e
        if c = '\n' then unescapeBytes fuel r2
        else if c = '\\' then (unescapeBytes fuel r2).map ('\\' :: ·)
        else if c.toNat = 39 then (unescapeBytes fuel r2).map (charOfCode 39 :: ·)
        else if c = '"' then (unescapeBytes fuel r2).map ('"' :: ·)
        else if c = 'a' then (unescapeBytes fuel r2).map ('\x07' :: ·)
        else if c = 'b' then (unescapeBytes fuel r2).map ('\x08' :: ·)
        else if c = 'f' then (unescapeBytes fuel r2).map ('\x0c' :: ·)
        else if c = 'n' then (unescapeBytes fuel r2).map ('\n' :: ·)
        else if c = 'r' then (unescapeBytes fuel r2).map ('\r' :: ·)
        else if c = 't' then (unescapeBytes fuel r2).map ('\t' :: ·)
        else if c = 'v' then (unescapeBytes fuel r2).map ('\x0b' :: ·)
        else if isOctal c then
          let ds := (e :: r2.take 2).takeWhile (fun b => isOctal (charOfCode b))
          let val := ds.foldl (fun acc b => acc * 8 + (b - 48)) 0
          (unescapeBytes fuel (r2.drop (ds.length - 1))).map (charOfCode val :: ·)
        else if c = 'x' then
          match r2 with
          | h1 :: h2 :: r3 =>
            match hexVal (charOfCode h1), hexVal (charOfCode h2) with
            | some x, some y => (unescapeBytes fuel r3).map (charOfCode (x * 16 + y) :: ·)
            | _, _ => none
          | _ => none
        else if c = 'u' then
          match r2 with
          | h1 :: h2 :: h3 :: h4 :: r3 =>
            match hexVal (charOfCode h1), hexVal (charOfCode h2),
                  hexVal (charOfCode h3), hexVal (charOfCode h4) with
            | some a, some b2, some c2, some d =>
              (unescapeBytes fuel r3).map
                (charOfCode (((a * 16 + b2) * 16 + c2) * 16 + d) :: ·)
            | _, _, _, _ => none
          | _ => none
        else if c = 'U' then
          match r2 with
          | h1 :: h2 :: h3 :: h4 :: h5 :: h6 :: h7 :: h8 :: r3 =>
            let hs := [h1, h2, h3, h4, h5, h6, h7, h8].mapM (fun b => hexVal (charOfCode b))
            match hs with
            | some ds =>
              let val := ds.foldl (fun acc d => acc * 16 + d) 0
              if val ≤ 0x10ffff then
                (unescapeBytes fuel r3).map (charOfCode val :: ·)
              else none
            | none => none
          | _ => none
        else if c = 'N' then none
        else (unescapeBytes fuel r2).map (fun l => '\\' :: c :: l)
    | b :: rest => (unescapeBytes fuel rest).map (charOfCode b :: ·)

/-- `_unescape(s)`: on any decode error the original string is returned. -/
def unescapeStr (s : String) : String :=
  let bs := utf8Bytes s
  match unescapeBytes (bs.length + 1) bs with
  | some cs => String.mk cs
  | none => s

/-- Match the tail regex `"key"\s*:\s*"(.*?)"` at the start of `cs`. -/
def matchKeyAt (key : List Char) (cs : List Char) : Option (List Char) :=
  if ('"' :: key ++ ['"']).isPrefixOf cs then
    let rest := (cs.drop (key.length + 2)).dropWhile isPySpace
    match rest with
    | ':' :: r3 =>
      match r3.dropWhile isPySpace with
      | '"' :: r5 =>
        let captured := r5.takeWhile (fun c => c ≠ '"')
        if captured.length < r5.length then some captured else none
      | _ => none
    | _ => none
  else none

/-- `re.search(r'"key"\s*:\s*"(?P<val>.*?)"', text, flags=re.S)`: leftmost
match, lazy capture up to the next quote. -/
def searchKeyVal (key : String) (cs : List Char) : Option (List Char) :=
  cs.tails.findSome? (matchKeyAt key.toList)

/-- The regex-fallback stage of `extract_json`. -/
def regexFallback (t : List Char) : Option ChallengeRec :=
  let week := searchKeyVal "week_goal" t
  match searchKeyVal "goal" t, searchKeyVal "topic_brief" t,
        searchKeyVal "final_post" t with
  | some goalRaw, some briefRaw, some finalRaw =>
    let goal := String.mk (pyStrip (unescapeStr (String.mk goalRaw)).toList)
    let brief := String.mk (pyStrip (unescapeStr (String.mk briefRaw)).toList)
    let final := applyStoppers
      (String.mk (pyStrip (unescapeStr (String.mk finalRaw)).toList))
    if goal = "" ∨ brief = "" ∨ final = "" then none
    else some
      { week_goal := String.mk (pyStrip (week.getD []))
        goal := goal, topic_brief := brief, final_post := final }
  | _, _, _ => none

/-- `extract_json(text)` of the unified challenge script. -/
def extract_json (text : String) : Option ChallengeRec :=
  if text = "" then none
  else
    let t0 := text.toList
    let t1 := removeFenceBlocks t0.length t0
    let t2 := t1.filter (fun c => !isStrippedCtrl c)
    let t3 := replaceSub (t2.length + 1) "\"topic_bир\"".toList "\"topic_brief\"".toList t2
    let t4 := pyStrip t3
    let t := cut_first_json_block t4
    match stage1Scan (braceSuffixes t) with
    | some r => r
    | none => regexFallback t

/-! ### Concrete example data used by the scenario theorems and witnesses -/

/-- A fresh `'new'` post with empty metrics. -/
def examplePost (i : Nat) : Post :=
  { id := i, channel_username := "ch", post_text := some "post text",
    views := some 0, forwards := some 0, processing_status := Status.new,
    processor_pid := none, processing_started_at := none, attempts := none }

/-- A store holding exactly three `'new'` items and no verdicts. -/
def threeNewStore : Store :=
  { posts := [examplePost 1, examplePost 2, examplePost 3], post_quality := [],
    clean_posts := [], reactions := [], comments := [] }

/-- A store holding one `'new'` item with the given attempt counter. -/
def singleStore (att : Option Int) : Store :=
  { posts := [{ examplePost 1 with attempts := att }], post_quality := [],
    clean_posts := [], reactions := [], comments := [] }

/-- A store with one stale claim (started at 10) and one fresh claim
(started at 95). -/
def sweepStore : Store :=
  { posts :=
      [{ examplePost 1 with processing_status := Status.processing,
                            processor_pid := some 7,
                            processing_started_at := some 10,
                            attempts := some 1 },
       { examplePost 2 with processing_status := Status.processing,
                            processor_pid := some 8,
                            processing_started_at := some 95 }],
    post_quality := [], clean_posts := [], reactions := [], comments := [] }

/-- External outcomes: everything succeeds but the model emits no JSON and
the secondary extraction call fails. -/
def noJsonOracle : Oracle :=
  { tokenizationOk := true, gen := GenOutcome.ok, decodeOk := true,
    genText := "score 10/10 but no JSON at all", secondaryText := none, time := 0 }

/-- External outcomes: tokenization raises. -/
def badTokenOracle : Oracle :=
  { tokenizationOk := false, gen := GenOutcome.ok, decodeOk := true,
    genText := "", secondaryText := none, time := 0 }

/-- External outcomes: the generation call hard-fails (and so does its
minimal retry). -/
def genFailOracle : Oracle :=
  { tokenizationOk := true, gen := GenOutcome.retryFailed, decodeOk := true,
    genText := "", secondaryText := none, time := 0 }

/-- External outcomes: the model answers with just an empty JSON object. -/
def emptyJsonOracle : Oracle :=
  { tokenizationOk := true, gen := GenOutcome.ok, decodeOk := true,
    genText := "\x7b\x7d", secondaryText := none, time := 0 }

/-- External outcomes: the model answers with prose-wrapped valid JSON. -/
def goodJsonOracle : Oracle :=
  { tokenizationOk := true, gen := GenOutcome.ok, decodeOk := true,
    genText := "Here is your answer: \x7b\"score\": 87, \"is_good\": true\x7d thanks!",
    secondaryText := none, time := 0 }

/-- Status/ownership/attempts summary of a store's posts. -/
def summary (s : Store) : List (Nat × Status × Option Int × Option Int × Option Int) :=
  s.posts.map (fun p =>
    (p.id, p.processing_status, p.attempts, p.processor_pid, p.processing_started_at))

/-- A store whose single item has exhausted its retry budget. -/
def errorStore : Store :=
  { posts := [{ examplePost 1 with
                processing_status := Status.error
                attempts := some 3 }],
    post_quality := [], clean_posts := [], reactions := [], comments := [] }

/-- An example inference input item. -/
def exItem : Item :=
  { post_id := 1, channel := "ch", text := "t",
    metrics := { views := 0, forwards := 0, reactions_sum := 0,
                 comments_count := 0, engagement_rate := 0 } }

/-- An example signals payload (used by the upsert witness). -/
def exSignals (sc : ℚ) : Signals :=
  { judge := "llm", model_version := "v", score := sc, is_good := decide (sc ≥ 50),
    reasons := [], clarity := 0, usefulness := 0, engagement := 0, ethics := 0,
    metrics := { views := 0, forwards := 0, reactions_sum := 0,
                 comments_count := 0, engagement_rate := 0 },
    raw_output := "", inference_time_s := 0 }

/-- An example verdict row with the given score. -/
def exQualityRow (sc : ℚ) (ts : Int) : QualityRow :=
  { post_id := 1, channel_username := "ch", quality_score := sc,
    is_good := decide (sc ≥ 50), signals := exSignals sc, gen_status := "ok",
    updated_at := ts }

/-! ## Shared helper lemmas -/

theorem get_map_eq {α β : Type _} (f : α → β) (l : List α) (i : Nat)
    (h1 : i < l.length) (h2 : i < (l.map f).length) :
    (l.map f).get ⟨i, h2⟩ = f (l.get ⟨i, h1⟩) := by
  simp [List.get_eq_getElem, List.getElem_map]

theorem foldl_preserve {α β : Type _} (P : α → Prop) (f : α → β → α)
    (h : ∀ a b, P a → P (f a b)) :
    ∀ (l : List β) (a : α), P a → P (l.foldl f a)
  | [], _, ha => ha
  | b :: l, a, ha => foldl_preserve P f h l (f a b) (h a b ha)

/-! ## C4: the sweeper resets exactly the stale claims -/

/-- C4: `ResetStuck` returns every `'processing'` item whose claim
timestamp is older than the timeout to `'new'` with owner and timestamp
cleared, leaves every other item (fresh claims included) completely
untouched, changes no item's `attempts`, and reports exactly the affected
ids. -/
theorem reset_stuck_spec (s : Store) (timeout now : Int) :
    (reset_stuck s timeout now).1 = (s.posts.filter (stuck timeout now)).map (·.id) ∧
    (reset_stuck s timeout now).2.posts.length = s.posts.length ∧
    (reset_stuck s timeout now).2.post_quality = s.post_quality ∧
    ∀ (i : Nat) (h1 : i < s.posts.length)
      (h2 : i < (reset_stuck s timeout now).2.posts.length),
      (((reset_stuck s timeout now).2.posts.get ⟨i, h2⟩).attempts
          = (s.posts.get ⟨i, h1⟩).attempts) ∧
      (stuck timeout now (s.posts.get ⟨i, h1⟩) = true →
        ((reset_stuck s timeout now).2.posts.get ⟨i, h2⟩).processing_status
            = Status.new ∧
        ((reset_stuck s timeout now).2.posts.get ⟨i, h2⟩).processor_pid = none ∧
        ((reset_stuck s timeout now).2.posts.get ⟨i, h2⟩).processing_started_at
            = none) ∧
      (stuck timeout now (s.posts.get ⟨i, h1⟩) = false →
        (reset_stuck s timeout now).2.posts.get ⟨i, h2⟩ = s.posts.get ⟨i, h1⟩) := by
  refine ⟨rfl, by simp [reset_stuck], rfl, ?_⟩
  intro i h1 h2
  have hmap : (reset_stuck s timeout now).2.posts.get ⟨i, h2⟩
      = (fun p => if stuck timeout now p then
          { p with processing_status := Status.new, processor_pid := none,
                   processing_started_at := none }
        else p) (s.posts.get ⟨i, h1⟩) :=
    get_map_eq _ s.posts i h1 h2
  simp only [List.get_eq_getElem] at hmap
  cases hst : stuck timeout now (s.posts.get ⟨i, h1⟩) with
  | false =>
    simp only [List.get_eq_getElem] at hst
    simp [hmap, hst]
  | true =>
    simp only [List.get_eq_getElem] at hst
    simp [hmap, hst]

/-- Witness for C4 at the two-row example store: the stale claim (row 0)
is reset with `attempts` intact and the fresh claim (row 1) is untouched. -/
theorem reset_stuck_spec_witness :
    ((reset_stuck sweepStore 15 100).2.posts.get ⟨0, by decide⟩).processing_status
        = Status.new ∧
    ((reset_stuck sweepStore 15 100).2.posts.get ⟨0, by decide⟩).processor_pid = none ∧
    ((reset_stuck sweepStore 15 100).2.posts.get ⟨0, by decide⟩).attempts
        = (sweepStore.posts.get ⟨0, by decide⟩).attempts ∧
    (reset_stuck sweepStore 15 100).2.posts.get ⟨1, by decide⟩
        = sweepStore.posts.get ⟨1, by decide⟩ := by
  have h := reset_stuck_spec sweepStore 15 100
  have h0 := h.2.2.2 0 (by decide) (by decide)
  have h1 := h.2.2.2 1 (by decide) (by decide)
  have hs0 := h0.2.1 (by decide)
  exact ⟨hs0.1, hs0.2.1, h0.1, h1.2.2 (by decide)⟩

/-! ## C6: committing a verdict is an idempotent upsert -/

theorem upsertQuality_post_id_stable (r : QualityRow) (q : QualityRow) :
    (if q.post_id = r.post_id then
      { q with quality_score := r.quality_score, is_good := r.is_good,
               signals := r.signals, gen_status := r.gen_status,
               updated_at := r.updated_at }
     else q).post_id = q.post_id := by
  by_cases h : q.post_id = r.post_id <;> simp [h]

theorem upsertQuality_count (table : List QualityRow) (r : QualityRow)
    (h : (table.filter (fun q => q.post_id = r.post_id)).length ≤ 1) :
    ((upsertQuality table r).filter (fun q => q.post_id = r.post_id)).length = 1 := by
  unfold upsertQuality
  by_cases hany : table.any (fun q => q.post_id = r.post_id)
  · simp only [hany, if_true]
    rw [List.filter_map]
    have hcomp : ∀ q : QualityRow,
        ((fun q : QualityRow => decide (q.post_id = r.post_id)) ∘
          (fun q : QualityRow => if q.post_id = r.post_id then
            { q with quality_score := r.quality_score, is_good := r.is_good,
                     signals := r.signals, gen_status := r.gen_status,
                     updated_at := r.updated_at }
           else q)) q
        = decide (q.post_id = r.post_id) := by
      intro q
      simp only [Function.comp_apply]
      rw [upsertQuality_post_id_stable r q]
    rw [List.filter_congr (fun q _ => hcomp q)]
    rcases List.any_eq_true.mp hany with ⟨x, hx, hpx⟩
    have hmemf : x ∈ table.filter (fun q => decide (q.post_id = r.post_id)) :=
      List.mem_filter.mpr ⟨hx, hpx⟩
    have hpos : 0 < (table.filter (fun q => decide (q.post_id = r.post_id))).length :=
      List.length_pos.mpr (List.ne_nil_of_mem hmemf)
    simp only [List.length_map]
    omega
  · simp only [hany, if_false, Bool.false_eq_true]
    rw [List.filter_append]
    have hnil : table.filter (fun q => decide (q.post_id = r.post_id)) = [] := by
      rw [List.filter_eq_nil_iff]
      intro q hq
      have := List.any_eq_false.mp (Bool.of_not_eq_true hany) q hq
      simpa using this
    simp [hnil]

theorem upsertQuality_mem (table : List QualityRow) (r : QualityRow) :
    ∀ q ∈ upsertQuality table r, q.post_id = r.post_id →
      q.quality_score = r.quality_score ∧ q.is_good = r.is_good ∧
      q.signals = r.signals ∧ q.gen_status = r.gen_status ∧
      q.updated_at = r.updated_at := by
  unfold upsertQuality
  by_cases hany : table.any (fun q => q.post_id = r.post_id)
  · simp only [hany, if_true]
    intro q hq hpid
    rcases List.mem_map.mp hq with ⟨x, _, rfl⟩
    by_cases hxp : x.post_id = r.post_id
    · simp [hxp]
    · rw [if_neg hxp] at hpid ⊢
      exact absurd hpid hxp
  · simp only [hany, if_false, Bool.false_eq_true]
    intro q hq hpid
    rcases List.mem_append.mp hq with hmem | hmem
    · have := List.any_eq_false.mp (Bool.of_not_eq_true hany) q hmem
      simp at this
      exact absurd hpid this
    · have : q = r := by simpa using hmem
      subst this
      exact ⟨rfl, rfl, rfl, rfl, rfl⟩

/-- C6: upserting twice for the same `post_id` with different payloads
leaves exactly one `post_quality` row for that id, whose updatable fields
(`quality_score`, `is_good`, `signals`, `gen_status`, `updated_at`) are
those of the second call; the precondition is the table's unique index on
`post_id` (at most one existing row for the id). -/
theorem upsert_verdict_idempotent (table : List QualityRow) (r1 r2 : QualityRow)
    (hpid : r1.post_id = r2.post_id)
    (h : (table.filter (fun q => q.post_id = r2.post_id)).length ≤ 1) :
    (((upsertQuality (upsertQuality table r1) r2).filter
        (fun q => q.post_id = r2.post_id)).length = 1) ∧
    ∀ q ∈ upsertQuality (upsertQuality table r1) r2, q.post_id = r2.post_id →
      q.quality_score = r2.quality_score ∧ q.is_good = r2.is_good ∧
      q.signals = r2.signals ∧ q.gen_status = r2.gen_status ∧
      q.updated_at = r2.updated_at := by
  have h' : (table.filter (fun q => q.post_id = r1.post_id)).length ≤ 1 := by
    rw [hpid]; exact h
  have h1 := upsertQuality_count table r1 h'
  rw [hpid] at h1
  exact ⟨upsertQuality_count (upsertQuality table r1) r2 (le_of_eq h1),
         upsertQuality_mem (upsertQuality table r1) r2⟩

/-- Witness for C6: two concrete upserts into an empty table leave one
row carrying the second call's score. -/
theorem upsert_verdict_idempotent_witness :
    (((upsertQuality (upsertQuality [] (exQualityRow 30 5)) (exQualityRow 70 9)).filter
        (fun q => q.post_id = (exQualityRow 70 9).post_id)).length = 1) ∧
    ((upsertQuality (upsertQuality [] (exQualityRow 30 5)) (exQualityRow 70 9)).get
        ⟨0, by decide⟩).quality_score = 70 := by
  have h := upsert_verdict_idempotent [] (exQualityRow 30 5) (exQualityRow 70 9)
    rfl (by decide)
  refine ⟨h.1, ?_⟩
  have hm := h.2 _ (List.get_mem _ 0 (by decide)) rfl
  exact hm.1.trans rfl

/-! ## C10: one result entry per input item, in order -/

theorem infer_batch_from_length (oracles : Nat → Oracle) :
    ∀ (items : List Item) (j : Nat),
      (infer_batch_from oracles j items).length = items.length
  | [], _ => rfl
  | _ :: rest, j => by
    simp [infer_batch_from, infer_batch_from_length oracles rest (j + 1)]

theorem infer_batch_from_get (oracles : Nat → Oracle) :
    ∀ (items : List Item) (j i : Nat) (h1 : i < items.length)
      (h2 : i < (infer_batch_from oracles j items).length),
      (infer_batch_from oracles j items).get ⟨i, h2⟩
        = infer_item (oracles (j + i)) (items.get ⟨i, h1⟩)
  | [], _, i, h1, _ => absurd h1 (by simp)
  | it :: rest, j, 0, _, _ => by simp [infer_batch_from]
  | it :: rest, j, Nat.succ i, h1, h2 => by
    have ih := infer_batch_from_get oracles rest (j + 1) i
      (by simpa using Nat.lt_of_succ_lt_succ h1)
      (by simpa [infer_batch_from] using Nat.lt_of_succ_lt_succ h2)
    simp only [infer_batch_from, List.get_eq_getElem, List.getElem_cons_succ]
    simp only [List.get_eq_getElem] at ih
    rw [ih]
    have harith : j + 1 + i = j + (i + 1) := by omega
    rw [harith]

/-- C10: `infer_batch` returns exactly one result per input item and the
`i`-th result is the verdict of the `i`-th item — every branch of the loop
appends exactly one entry before continuing — which is the alignment the
commit loop's `zip` depends on. -/
theorem infer_batch_alignment (oracles : Nat → Oracle) (items : List Item) :
    (infer_batch oracles items).length = items.length ∧
    ∀ (i : Nat) (h1 : i < items.length)
      (h2 : i < (infer_batch oracles items).length),
      (infer_batch oracles items).get ⟨i, h2⟩
        = infer_item (oracles i) (items.get ⟨i, h1⟩) := by
  refine ⟨infer_batch_from_length oracles items 0, ?_⟩
  intro i h1 h2
  have := infer_batch_from_get oracles items 0 i h1 h2
  simpa using this

/-- Witness for C10 on a singleton batch. -/
theorem infer_batch_alignment_witness :
    (infer_batch (fun _ => noJsonOracle) [exItem]).length = 1 ∧
    (infer_batch (fun _ => noJsonOracle) [exItem]).get ⟨0, by decide⟩
      = infer_item noJsonOracle exItem := by
  have h := infer_batch_alignment (fun _ => noJsonOracle) [exItem]
  exact ⟨h.1.trans rfl, h.2 0 (by decide) (by decide)⟩

/-! ## C2: the recovery pipeline is a total function with a heuristic
fallback -/

theorem heuristic_cases (m : Metrics) :
    heuristic_fallback_score m = 80 ∨ heuristic_fallback_score m = 55 ∨
    heuristic_fallback_score m = 10 ∨ heuristic_fallback_score m = 35 := by
  unfold heuristic_fallback_score
  split_ifs <;> simp

theorem heuristic_bounds (m : Metrics) :
    0 ≤ heuristic_fallback_score m ∧ heuristic_fallback_score m ≤ 100 := by
  rcases heuristic_cases m with h | h | h | h <;> rw [h] <;> omega

theorem parse_js_entry_score (js : PyVal) (raw : String) (t : ℚ) (e : Entry)
    (h : parse_js_entry js raw t = some e) :
    ∃ sc, e.score = max 0 (min 100 sc) := by
  simp only [parse_js_entry, Option.bind_eq_bind, Option.bind_eq_some] at h
  obtain ⟨sc, hsc, h⟩ := h
  cases hl : js.getD "labels" (PyVal.pdict []) <;> rw [hl] at h <;>
    simp only [Option.none_bind, Option.some_bind, Option.bind_eq_some] at h
  case pnone => exact absurd h (by simp)
  case pbool b => exact absurd h (by simp)
  case pint n => exact absurd h (by simp)
  case pfloat q => exact absurd h (by simp)
  case pstr s => exact absurd h (by simp)
  case plist l => exact absurd h (by simp)
  case pdict l =>
    obtain ⟨c1, hc1, h⟩ := h
    obtain ⟨c2, hc2, h⟩ := h
    obtain ⟨c3, hc3, h⟩ := h
    obtain ⟨c4, hc4, h⟩ := h
    exact ⟨sc, by rw [← Option.some.inj h]⟩

theorem infer_item_score_shape (o : Oracle) (it : Item) :
    (infer_item o it).score = ((heuristic_fallback_score it.metrics : Int) : ℚ) ∨
    ∃ sc, (infer_item o it).score = max 0 (min 100 sc) := by
  unfold infer_item
  by_cases ht : o.tokenizationOk
  case neg => simp [ht, fallbackEntry]
  case pos =>
    simp only [ht, not_true_eq_false, if_false]
    cases hg : o.gen
    case retryFailed => simp [fallbackEntry]
    case exn => simp [fallbackEntry]
    case ok =>
      cases hjs : extract_or_recover_json (if o.decodeOk then o.genText else "")
      case none =>
        cases hsm : extract_with_model o
        case none => simp [hjs, hsm, fallbackEntry]
        case some j =>
          cases hp : parse_js_entry j (if o.decodeOk then o.genText else "") o.time
          case none => simp [hjs, hsm, hp, fallbackEntry]
          case some e =>
            right
            obtain ⟨sc, hsc⟩ := parse_js_entry_score j _ _ e hp
            refine ⟨sc, ?_⟩
            simp [hjs, hsm, hp, hsc]
      case some j =>
        cases hp : parse_js_entry j (if o.decodeOk then o.genText else "") o.time
        case none => simp [hjs, hp, fallbackEntry]
        case some e =>
          right
          obtain ⟨sc, hsc⟩ := parse_js_entry_score j _ _ e hp
          refine ⟨sc, ?_⟩
          simp [hjs, hp, hsc]

/-- C2: per-item inference always produces a usable verdict — the score is
always within bounds, the heuristic fallback is a total function of the
auxiliary metrics alone (one of four plateau values), an item on which
every decode stage and the secondary extraction fail gets exactly the
heuristic fallback entry, and the result list always receives one entry
per item. -/
theorem extract_total_function :
    (∀ (o : Oracle) (it : Item),
        0 ≤ (infer_item o it).score ∧ (infer_item o it).score ≤ 100) ∧
    (∀ m : Metrics,
        heuristic_fallback_score m = 80 ∨ heuristic_fallback_score m = 55 ∨
        heuristic_fallback_score m = 10 ∨ heuristic_fallback_score m = 35) ∧
    (∀ (o : Oracle) (it : Item),
        o.tokenizationOk = true → o.gen = GenOutcome.ok →
        extract_or_recover_json (if o.decodeOk then o.genText else "") = none →
        extract_with_model o = none →
        infer_item o it = fallbackEntry it.metrics "bad_json_fallback"
          (if (if o.decodeOk then o.genText else "") = "" then ""
           else (if o.decodeOk then o.genText else "").take 2000) o.time) ∧
    (∀ (oracles : Nat → Oracle) (items : List Item),
        (infer_batch oracles items).length = items.length) := by
  refine ⟨?_, heuristic_cases, ?_, fun oracles items =>
    infer_batch_from_length oracles items 0⟩
  · intro o it
    rcases infer_item_score_shape o it with h | ⟨sc, h⟩
    · rw [h]
      have hb := heuristic_bounds it.metrics
      constructor
      · exact_mod_cast hb.1
      · exact_mod_cast hb.2
    · rw [h]
      constructor
      · exact le_max_left 0 _
      · exact max_le (by norm_num) ((min_le_left _ _))
  · intro o it ht hg hjs hsm
    unfold infer_item
    simp [ht, hg, hjs, hsm]

set_option maxRecDepth 10000 in
/-- Witness for C2: all stages fail on prose with no JSON, yet the item
receives the heuristic fallback verdict. -/
theorem extract_total_function_witness :
    infer_item noJsonOracle exItem
      = fallbackEntry exItem.metrics "bad_json_fallback"
          (if (if noJsonOracle.decodeOk then noJsonOracle.genText else "") = "" then ""
           else (if noJsonOracle.decodeOk then noJsonOracle.genText else "").take 2000)
          noJsonOracle.time ∧
    0 ≤ (infer_item noJsonOracle exItem).score ∧
    (infer_item noJsonOracle exItem).score ≤ 100 := by
  refine ⟨extract_total_function.2.2.1 noJsonOracle exItem rfl rfl (by rfl) rfl, ?_⟩
  exact extract_total_function.1 noJsonOracle exItem

/-! ## C8: owner fields are non-null exactly on in-flight rows, in every
reachable state -/

theorem inv_markProcessing (posts : List Post) (ids : List Nat) (wpid now : Int)
    (h : ∀ p ∈ posts, postOwnerInv p) :
    ∀ p ∈ markProcessing posts ids wpid now, postOwnerInv p := by
  intro p hp
  rcases List.mem_map.mp hp with ⟨x, hx, rfl⟩
  by_cases hm : x.id ∈ ids
  · simp [hm, postOwnerInv]
  · simpa [hm] using h x hx

theorem inv_markDone (posts : List Post) (ids : List Nat)
    (h : ∀ p ∈ posts, postOwnerInv p) :
    ∀ p ∈ markDone posts ids, postOwnerInv p := by
  intro p hp
  rcases List.mem_map.mp hp with ⟨x, hx, rfl⟩
  by_cases hm : x.id ∈ ids
  · simp [hm, postOwnerInv]
  · simpa [hm] using h x hx

theorem inv_setTerminal (posts : List Post) (bid : Nat) (st : Status)
    (hst : st ≠ Status.processing) (h : ∀ p ∈ posts, postOwnerInv p) :
    ∀ p ∈ setTerminal posts bid st, postOwnerInv p := by
  intro p hp
  rcases List.mem_map.mp hp with ⟨x, hx, rfl⟩
  by_cases hm : x.id = bid
  · simp [hm, postOwnerInv, hst]
  · simpa [hm] using h x hx

theorem inv_bumpOne (maxAttempts : Int) (posts : List Post) (bid : Nat)
    (h : ∀ p ∈ posts, postOwnerInv p) :
    ∀ p ∈ bumpOne maxAttempts posts bid, postOwnerInv p := by
  have hb : ∀ p ∈ posts.map (bumpF bid), postOwnerInv p := by
    intro p hp
    rcases List.mem_map.mp hp with ⟨x, hx, rfl⟩
    unfold bumpF
    by_cases hm : x.id = bid
    · simpa [hm, postOwnerInv] using h x hx
    · simpa [hm] using h x hx
  simp only [bumpOne]
  cases hf : (posts.map (bumpF bid)).find? (fun p => p.id = bid) with
  | none => simp only [hf]; exact hb
  | some q =>
    simp only [hf]
    by_cases hc : q.attempts.getD 0 ≥ maxAttempts
    · rw [if_pos hc]
      exact inv_setTerminal _ bid Status.error (by simp) hb
    · rw [if_neg hc]
      exact inv_setTerminal _ bid Status.new (by simp) hb

theorem inv_applyOp (s : Store) (op : StoreOp) (h : ownerInv s) :
    ownerInv (applyOp s op) := by
  cases op with
  | claim batch wpid now =>
    unfold applyOp atomic_fetch_and_mark
    by_cases he : (claimIds s batch).isEmpty
    · simpa [he] using h
    · simp only [he, if_false, Bool.false_eq_true]
      exact inv_markProcessing s.posts (claimIds s batch) wpid now h
  | sweep timeout now =>
    unfold applyOp reset_stuck
    intro p hp
    rcases List.mem_map.mp hp with ⟨x, hx, rfl⟩
    by_cases hm : stuck timeout now x
    · simp [hm, postOwnerInv]
    · simpa [hm] using h x hx
  | commit mv maxA now pairs =>
    unfold applyOp commit_results
    have h1 : ∀ p ∈ (if ((pairs.filter
        (fun pr => !bumpCondition pr.2)).map (·.1.post_id)).isEmpty then s.posts
        else markDone s.posts ((pairs.filter
          (fun pr => !bumpCondition pr.2)).map (·.1.post_id))), postOwnerInv p := by
      split
      · exact h
      · exact inv_markDone s.posts _ h
    exact foldl_preserve (fun l => ∀ p ∈ l, postOwnerInv p)
      (bumpOne maxA) (fun l b hl => inv_bumpOne maxA l b hl) _ _ h1

/-- C8: every store operation of the judge script — claiming, sweeping,
and the commit phase with its done/retry/terminal updates — preserves the
invariant that `processor_pid` and `processing_started_at` are non-null
exactly on `'processing'` rows, so no reachable store state (from any
state satisfying it, in particular the all-`'new'` ingest state) has an
owner without being in flight or vice versa. -/
theorem owner_invariant_preserved :
    (∀ (s : Store) (op : StoreOp), ownerInv s → ownerInv (applyOp s op)) ∧
    (∀ (s : Store) (ops : List StoreOp), ownerInv s → ownerInv (applyOps s ops)) := by
  refine ⟨inv_applyOp, fun s ops => ?_⟩
  exact foldl_preserve ownerInv applyOp inv_applyOp ops s

/-- Witness for C8: a claim followed by a sweep on the three-item store
keeps the invariant. -/
theorem owner_invariant_preserved_witness :
    ownerInv (applyOps threeNewStore [StoreOp.claim 2 7 100, StoreOp.sweep 15 200]) :=
  owner_invariant_preserved.2 threeNewStore
    [StoreOp.claim 2 7 100, StoreOp.sweep 15 200] (by decide)

/-! ## C1: the claim protocol -/

theorem mem_claimIds (s : Store) (batch : Nat) :
    ∀ i ∈ claimIds s batch, ∃ p ∈ s.posts, p.id = i ∧
      p.processing_status = Status.new ∧ hasQuality s p.id = false := by
  intro i hi
  have h1 : i ∈ List.insertionSort (· ≤ ·)
      ((s.posts.filter (claimable s)).map (·.id)) :=
    List.mem_of_mem_take hi
  have h2 : i ∈ (s.posts.filter (claimable s)).map (·.id) :=
    (List.perm_insertionSort (· ≤ ·) _).subset h1
  rcases List.mem_map.mp h2 with ⟨p, hp, rfl⟩
  rcases List.mem_filter.mp hp with ⟨hmem, hcl⟩
  have := hcl
  unfold claimable at this
  simp only [Bool.and_eq_true, decide_eq_true_eq, Bool.not_eq_true'] at this
  exact ⟨p, hmem, rfl, this.1, this.2⟩

theorem claimIds_length (s : Store) (batch : Nat) :
    (claimIds s batch).length ≤ batch := by
  unfold claimIds
  exact List.length_take_le _ _

theorem filterMap_find_map_id (posts : List Post) (g : Post → ItemRow)
    (hg : ∀ p, (g p).id = p.id) :
    ∀ ids : List Nat, (∀ i ∈ ids, ∃ p ∈ posts, p.id = i) →
      (ids.filterMap (fun i => (posts.find? (fun p => p.id = i)).map g)).map (·.id)
        = ids
  | [], _ => rfl
  | i :: rest, h => by
    obtain ⟨p, hp, hpi⟩ := h i (List.mem_cons_self i rest)
    have hsome : (posts.find? (fun p => p.id = i)).isSome :=
      List.find?_isSome.mpr ⟨p, hp, by simp [hpi]⟩
    obtain ⟨q, hq⟩ := Option.isSome_iff_exists.mp hsome
    have hqid : q.id = i := by simpa using List.find?_some hq
    have ih := filterMap_find_map_id posts g hg rest
      (fun j hj => h j (List.mem_cons_of_mem i hj))
    simp [List.filterMap_cons, hq, hg, hqid, ih]

theorem markProcessing_mem_id (posts : List Post) (ids : List Nat) (w n : Int) :
    ∀ i : Nat, (∃ p ∈ posts, p.id = i) →
      ∃ p ∈ markProcessing posts ids w n, p.id = i := by
  intro i ⟨p, hp, hpi⟩
  refine ⟨(fun p => if p.id ∈ ids then
    { p with processing_status := Status.processing, processor_pid := some w,
             processing_started_at := some n } else p) p,
    List.mem_map_of_mem _ hp, ?_⟩
  subst hpi
  by_cases hm : p.id ∈ ids <;> simp [hm]

theorem claimIds_empty_of_no_new (s : Store) (batch : Nat)
    (h : ∀ p ∈ s.posts, p.processing_status ≠ Status.new) :
    claimIds s batch = [] := by
  unfold claimIds
  have hfil : s.posts.filter (claimable s) = [] := by
    rw [List.filter_eq_nil_iff]
    intro p hp
    simp [claimable, h p hp]
  rw [hfil]
  simp

/-- C1: `Claim` selects at most `batchSize` items, each of which was
`'new'` (and unscored) in the pre-state; it flips exactly the selected
items to `'processing'` stamping the worker's pid and the claim timestamp;
it returns exactly the selected items (with their joined metric rows); an
exhausted queue yields the empty list with the store untouched; and on a
store with exactly three `'new'` items, worker A claiming 2 receives items
1 and 2 (now in flight under A) and worker B then claiming 2 receives
exactly the remaining item 3. -/
theorem claim_protocol_spec :
    (∀ (s : Store) (batch : Nat) (wpid now : Int),
      ((atomic_fetch_and_mark s batch wpid now).1).length ≤ batch ∧
      (∀ i ∈ claimIds s batch, ∃ p ∈ s.posts, p.id = i ∧
        p.processing_status = Status.new ∧ hasQuality s p.id = false) ∧
      ((atomic_fetch_and_mark s batch wpid now).2.posts
        = s.posts.map (fun p => if p.id ∈ claimIds s batch then
            { p with processing_status := Status.processing,
                     processor_pid := some wpid,
                     processing_started_at := some now } else p)) ∧
      ((atomic_fetch_and_mark s batch wpid now).1.map (·.id) = claimIds s batch) ∧
      ((∀ p ∈ s.posts, p.processing_status ≠ Status.new) →
        (atomic_fetch_and_mark s batch wpid now).1 = [] ∧
        (atomic_fetch_and_mark s batch wpid now).2 = s)) ∧
    ((atomic_fetch_and_mark threeNewStore 2 7 100).1.map (·.id) = [1, 2] ∧
     summary (atomic_fetch_and_mark threeNewStore 2 7 100).2
        = [(1, Status.processing, none, some 7, some 100),
           (2, Status.processing, none, some 7, some 100),
           (3, Status.new, none, none, none)] ∧
     (atomic_fetch_and_mark
        (atomic_fetch_and_mark threeNewStore 2 7 100).2 2 8 101).1.map (·.id)
        = [3]) := by
  refine ⟨?_, by decide, by decide, by decide⟩
  intro s batch wpid now
  have hrows_ids : (atomic_fetch_and_mark s batch wpid now).1.map (·.id)
      = claimIds s batch := by
    unfold atomic_fetch_and_mark
    by_cases he : (claimIds s batch).isEmpty
    · simp only [he, if_true]
      rw [List.isEmpty_iff] at he
      simp [he]
    · simp only [he, if_false, Bool.false_eq_true]
      refine filterMap_find_map_id _ (mkItemRow _) (fun p => rfl) _ ?_
      intro i hi
      obtain ⟨p, hp, hpi, _, _⟩ := mem_claimIds s batch i hi
      exact markProcessing_mem_id s.posts (claimIds s batch) wpid now i ⟨p, hp, hpi⟩
  refine ⟨?_, mem_claimIds s batch, ?_, hrows_ids, ?_⟩
  · have := congrArg List.length hrows_ids
    rw [List.length_map] at this
    rw [this]
    exact claimIds_length s batch
  · unfold atomic_fetch_and_mark
    by_cases he : (claimIds s batch).isEmpty
    · simp only [he, if_true]
      rw [List.isEmpty_iff] at he
      rw [he]
      simp
    · simp only [he, if_false, Bool.false_eq_true]
      rfl
  · intro hno
    have hempty := claimIds_empty_of_no_new s batch hno
    unfold atomic_fetch_and_mark
    rw [hempty]
    exact ⟨rfl, rfl⟩

/-- Witness for C1: the empty-queue clause at a store whose only item is
already `'done'`. -/
theorem claim_protocol_spec_witness :
    (atomic_fetch_and_mark
      { posts := [{ examplePost 1 with processing_status := Status.done }],
        post_quality := [], clean_posts := [], reactions := [], comments := [] }
      5 7 100).1 = [] :=
  ((claim_protocol_spec.1 _ 5 7 100).2.2.2.2 (by decide)).1

/-! ## C3: fallback verdicts and the done/retry split -/

set_option maxRecDepth 20000 in
/-- C3 counterexample: an item whose model output is unparseable (all
decode stages and the secondary extraction fail) gets its fallback verdict
committed (`gen_status = 'ok'`, reason `bad_json_fallback`), yet the loop
bumps its attempt counter to 1 and returns it to `'new'` instead of
marking it `'done'` — a `bad_json_fallback` verdict is a retry condition
in this code. -/
theorem fallback_not_terminal_counterexample :
    summary (loopIteration (singleStore none) (fun _ => noJsonOracle) 32 7 100 101 "v" 3)
      = [(1, Status.new, some 1, none, none)] ∧
    (loopIteration (singleStore none) (fun _ => noJsonOracle) 32 7 100 101 "v" 3).post_quality.map
      (fun q => (q.post_id, q.gen_status)) = [(1, "ok")] ∧
    (loopIteration (singleStore none) (fun _ => noJsonOracle) 32 7 100 101 "v" 3).post_quality.map
      (fun q => q.signals.reasons) = [[PyVal.pstr "bad_json_fallback"]] := by
  refine ⟨by decide, by decide, by rfl⟩

/-- C3 amended: every verdict, fallback included, is committed via the
upsert with `gen_status = 'ok'`; verdicts whose reasons carry the
generation-failure or field-parse fallback tags are marked terminal
`'done'`, but a verdict carrying `bad_json_fallback` or
`tokenization_failed_fallback` (or a raw `bad_json` reason) is treated as
a retry condition: the item's attempt counter is bumped and it re-enters
the queue (or goes terminal at the budget) via the bump path. -/
theorem fallback_commit_policy (s : Store) (mv : String) (maxA now : Int)
    (it : Item) (res : Entry) (m : Metrics) (raw : String) (t : ℚ) :
    ((commit_results s mv maxA now [(it, res)]).post_quality
        = upsertQuality s.post_quality (mkQualityRow mv now it res)) ∧
    ((mkQualityRow mv now it res).gen_status = "ok") ∧
    (bumpCondition (fallbackEntry m "generation_failed_fallback" raw t) = false) ∧
    (bumpCondition (fallbackEntry m "generation_exception_fallback" raw t) = false) ∧
    (bumpCondition (fallbackEntry m "bad_json_parse_fallback" raw t) = false) ∧
    (bumpCondition res = false →
      (commit_results s mv maxA now [(it, res)]).posts
        = markDone s.posts [it.post_id]) ∧
    (bumpCondition (fallbackEntry m "bad_json_fallback" raw t) = true) ∧
    (bumpCondition (fallbackEntry m "tokenization_failed_fallback" raw t) = true) ∧
    (bumpCondition res = true →
      (commit_results s mv maxA now [(it, res)]).posts
        = bumpOne maxA s.posts it.post_id) := by
  refine ⟨rfl, rfl, rfl, rfl, rfl, ?_, rfl, rfl, ?_⟩
  · intro h
    simp [commit_results, h, markDone]
  · intro h
    simp [commit_results, h]

/-- Witness for C3 (amended): instantiated at the no-JSON fallback entry,
whose bump condition holds, so the singleton commit runs the bump path. -/
theorem fallback_commit_policy_witness :
    (commit_results (singleStore none) "v" 3 101
        [(exItem, fallbackEntry exItem.metrics "bad_json_fallback" "" 0)]).posts
      = bumpOne 3 (singleStore none).posts exItem.post_id :=
  (fallback_commit_policy (singleStore none) "v" 3 101 exItem
    (fallbackEntry exItem.metrics "bad_json_fallback" "" 0)
    exItem.metrics "" 0).2.2.2.2.2.2.2.2 rfl

/-! ## C9: tokenization failures and the retry path -/

theorem bumpOne_cases (posts : List Post) (maxA : Int) (bid : Nat) (q : Post)
    (hfind : (posts.map (bumpF bid)).find? (fun p => p.id = bid) = some q) :
    (q.attempts.getD 0 ≥ maxA →
      bumpOne maxA posts bid
        = setTerminal (posts.map (bumpF bid)) bid Status.error) ∧
    (q.attempts.getD 0 < maxA →
      bumpOne maxA posts bid
        = setTerminal (posts.map (bumpF bid)) bid Status.new) := by
  constructor
  · intro hge
    simp only [bumpOne, hfind]
    rw [if_pos hge]
  · intro hlt
    simp only [bumpOne, hfind]
    rw [if_neg (not_le.mpr hlt)]

set_option maxRecDepth 20000 in
/-- C9 counterexample: the first tokenization failure of a fresh item does
not mark it terminal `'failed'` — the fallback verdict is committed and
the item is scheduled for a retry (`attempts = 1`, back to `'new'`),
contradicting "immediately marks the item terminal without scheduling any
retry". -/
theorem tokenization_not_terminal_counterexample :
    summary (loopIteration (singleStore none) (fun _ => badTokenOracle) 32 7 100 101 "v" 3)
      = [(1, Status.new, some 1, none, none)] ∧
    (loopIteration (singleStore none) (fun _ => badTokenOracle) 32 7 100 101 "v" 3).post_quality.map
      (fun q => q.signals.reasons) = [[PyVal.pstr "tokenization_failed_fallback"]] := by
  refine ⟨by decide, by rfl⟩

set_option maxRecDepth 20000 in
/-- C9 amended: a tokenization failure yields the
`tokenization_failed_fallback` verdict, which is committed but classified
as a retry condition: the item's attempt counter is bumped and it returns
to `'new'` while under the budget, going terminal `'error'` (owner fields
cleared) only once `attempts` reaches `MAX_ATTEMPTS` — as the concrete
at-budget run shows. -/
theorem tokenization_failure_policy :
    (∀ (o : Oracle) (it : Item), o.tokenizationOk = false →
      infer_item o it = fallbackEntry it.metrics "tokenization_failed_fallback" "" 0 ∧
      bumpCondition (infer_item o it) = true) ∧
    (∀ (posts : List Post) (maxA : Int) (bid : Nat) (q : Post),
      (posts.map (bumpF bid)).find? (fun p => p.id = bid) = some q →
      q.attempts.getD 0 < maxA →
      bumpOne maxA posts bid
        = setTerminal (posts.map (bumpF bid)) bid Status.new) ∧
    (summary (loopIteration (singleStore (some 2)) (fun _ => badTokenOracle)
        32 7 100 101 "v" 3)
      = [(1, Status.error, some 3, none, none)]) := by
  refine ⟨?_, ?_, by decide⟩
  · intro o it h
    have he : infer_item o it
        = fallbackEntry it.metrics "tokenization_failed_fallback" "" 0 := by
      unfold infer_item
      simp [h]
    exact ⟨he, by rw [he]; rfl⟩
  · intro posts maxA bid q hfind hlt
    exact (bumpOne_cases posts maxA bid q hfind).2 hlt

/-- Witness for C9 (amended): the tokenization-failure oracle on the
example item produces exactly the fallback entry and it satisfies the
retry condition. -/
theorem tokenization_failure_policy_witness :
    infer_item badTokenOracle exItem
      = fallbackEntry exItem.metrics "tokenization_failed_fallback" "" 0 ∧
    bumpCondition (infer_item badTokenOracle exItem) = true :=
  tokenization_failure_policy.1 badTokenOracle exItem rfl

/-! ## C5: retry budget and the permanence of the terminal state -/

theorem markProcessing_map_id (posts : List Post) (ids : List Nat) (w n : Int) :
    (markProcessing posts ids w n).map (·.id) = posts.map (·.id) := by
  unfold markProcessing
  rw [List.map_map]
  apply List.map_congr_left
  intro p _
  by_cases h : p.id ∈ ids <;> simp [h]

theorem reset_stuck_map_id (s : Store) (timeout now : Int) :
    ((reset_stuck s timeout now).2.posts.map (·.id)) = s.posts.map (·.id) := by
  unfold reset_stuck
  rw [List.map_map]
  apply List.map_congr_left
  intro p _
  by_cases h : stuck timeout now p <;> simp [h]

theorem error_not_in_claimIds (s : Store) (batch : Nat) (p : Post)
    (hp : p ∈ s.posts) (he : p.processing_status = Status.error)
    (hn : (s.posts.map (·.id)).Nodup) :
    p.id ∉ claimIds s batch := by
  intro hmem
  obtain ⟨q, hq, hqid, hqnew, _⟩ := mem_claimIds s batch p.id hmem
  have : q = p := List.inj_on_of_nodup_map hn hq hp hqid
  rw [this] at hqnew
  rw [he] at hqnew
  exact Status.noConfusion hqnew

theorem error_row_claim_stable (s : Store) (batch : Nat) (wpid now : Int)
    (p : Post) (hp : p ∈ s.posts) (he : p.processing_status = Status.error)
    (hn : (s.posts.map (·.id)).Nodup) :
    p ∈ (atomic_fetch_and_mark s batch wpid now).2.posts := by
  unfold atomic_fetch_and_mark
  by_cases hempty : (claimIds s batch).isEmpty
  · simpa [hempty] using hp
  · simp only [hempty, if_false, Bool.false_eq_true]
    have hid := error_not_in_claimIds s batch p hp he hn
    have heq : (fun q => if q.id ∈ claimIds s batch then
        { q with processing_status := Status.processing, processor_pid := some wpid,
                 processing_started_at := some now } else q) p = p := by
      simp [hid]
    have hmem : (fun q => if q.id ∈ claimIds s batch then
        { q with processing_status := Status.processing, processor_pid := some wpid,
                 processing_started_at := some now } else q) p
        ∈ markProcessing s.posts (claimIds s batch) wpid now :=
      List.mem_map_of_mem _ hp
    rwa [heq] at hmem

theorem error_row_sweep_stable (s : Store) (timeout now : Int)
    (p : Post) (hp : p ∈ s.posts) (he : p.processing_status = Status.error) :
    p ∈ (reset_stuck s timeout now).2.posts := by
  unfold reset_stuck
  have hstuck : stuck timeout now p = false := by
    simp [stuck, he]
  have heq : (fun q => if stuck timeout now q then
      { q with processing_status := Status.new, processor_pid := none,
               processing_started_at := none } else q) p = p := by
    simp [hstuck]
  have hmem : (fun q => if stuck timeout now q then
      { q with processing_status := Status.new, processor_pid := none,
               processing_started_at := none } else q) p
      ∈ s.posts.map (fun q => if stuck timeout now q then
      { q with processing_status := Status.new, processor_pid := none,
               processing_started_at := none } else q) :=
    List.mem_map_of_mem _ hp
  rwa [heq] at hmem

theorem error_row_trace_stable (p : Post)
    (he : p.processing_status = Status.error) :
    ∀ (ops : List StoreOp) (s : Store), (∀ op ∈ ops, claimOrSweep op) →
      p ∈ s.posts → (s.posts.map (·.id)).Nodup →
      p ∈ (applyOps s ops).posts ∧ ((applyOps s ops).posts.map (·.id)).Nodup
  | [], s, _, hp, hn => ⟨hp, hn⟩
  | op :: rest, s, hops, hp, hn => by
    have hop := hops op (List.mem_cons_self op rest)
    have hrest := fun o ho => hops o (List.mem_cons_of_mem op ho)
    have hstep : p ∈ (applyOp s op).posts ∧
        (((applyOp s op).posts.map (·.id)).Nodup) := by
      cases op with
      | claim batch wpid now =>
        refine ⟨error_row_claim_stable s batch wpid now p hp he hn, ?_⟩
        unfold applyOp atomic_fetch_and_mark
        by_cases hempty : (claimIds s batch).isEmpty
        · simpa [hempty] using hn
        · simp only [hempty, if_false, Bool.false_eq_true]
          rw [markProcessing_map_id]
          exact hn
      | sweep timeout now =>
        refine ⟨error_row_sweep_stable s timeout now p hp he, ?_⟩
        have := reset_stuck_map_id s timeout now
        unfold applyOp
        rw [this]
        exact hn
      | commit mv maxA now pairs => exact absurd hop (by simp [claimOrSweep])
    have := error_row_trace_stable p he rest (applyOp s op) hrest hstep.1 hstep.2
    simpa [applyOps, List.foldl_cons] using this

set_option maxRecDepth 20000 in
/-- C5 counterexample: an item that has already failed twice
(`attempts = 2`, budget `MAX_ATTEMPTS = 3`) whose generation call
hard-fails a third time — exactly `budget` failures — is **not**
transitioned to a terminal failed state: the code commits a
`generation_failed_fallback` verdict and marks it `'done'`, with
`attempts` untouched (generation hard failures never reach the bump
path). -/
theorem retry_budget_counterexample :
    summary (loopIteration (singleStore (some 2)) (fun _ => genFailOracle)
        32 7 100 101 "v" 3)
      = [(1, Status.done, some 2, none, none)] ∧
    (loopIteration (singleStore (some 2)) (fun _ => genFailOracle)
        32 7 100 101 "v" 3).post_quality.map (fun q => q.signals.reasons)
      = [[PyVal.pstr "generation_failed_fallback"]] := by
  refine ⟨by decide, by rfl⟩

/-- C5 amended: a generation hard failure is committed as a
fallback-scored `'done'` item and never counts against the budget; the
budget applies to the bump path (bad-JSON / tokenization failures), where
an item whose counter reaches `MAX_ATTEMPTS` goes terminal `'error'` with
owner fields cleared; and an `'error'` row is never selected by `Claim`,
never touched by `ResetStuck`, and survives any interleaving of claims
and sweeps unchanged. -/
theorem retry_budget_policy :
    (∀ (o : Oracle) (it : Item), o.tokenizationOk = true →
      o.gen = GenOutcome.retryFailed →
      infer_item o it = fallbackEntry it.metrics "generation_failed_fallback" "" 0 ∧
      bumpCondition (infer_item o it) = false) ∧
    (∀ (posts : List Post) (maxA : Int) (bid : Nat) (q : Post),
      (posts.map (bumpF bid)).find? (fun p => p.id = bid) = some q →
      q.attempts.getD 0 ≥ maxA →
      bumpOne maxA posts bid
        = setTerminal (posts.map (bumpF bid)) bid Status.error) ∧
    (∀ (s : Store) (batch : Nat) (p : Post), p ∈ s.posts →
      p.processing_status = Status.error → (s.posts.map (·.id)).Nodup →
      p.id ∉ claimIds s batch) ∧
    (∀ (s : Store) (timeout now : Int) (p : Post), p ∈ s.posts →
      p.processing_status = Status.error →
      p ∈ (reset_stuck s timeout now).2.posts) ∧
    (∀ (p : Post) (ops : List StoreOp) (s : Store),
      p.processing_status = Status.error →
      (∀ op ∈ ops, claimOrSweep op) → p ∈ s.posts →
      (s.posts.map (·.id)).Nodup → p ∈ (applyOps s ops).posts) := by
  refine ⟨?_, ?_, error_not_in_claimIds, error_row_sweep_stable, ?_⟩
  · intro o it ht hg
    have he : infer_item o it
        = fallbackEntry it.metrics "generation_failed_fallback" "" 0 := by
      unfold infer_item
      simp [ht, hg]
    exact ⟨he, by rw [he]; rfl⟩
  · intro posts maxA bid q hfind hge
    exact (bumpOne_cases posts maxA bid q hfind).1 hge
  · intro p ops s he hops hp hn
    exact (error_row_trace_stable p he ops s hops hp hn).1

/-- Witness for C5 (amended): the exhausted `'error'` row of the example
store is still present and untouched after a claim and a sweep. -/
theorem retry_budget_policy_witness :
    { examplePost 1 with
      processing_status := Status.error
      attempts := some 3 }
      ∈ (applyOps errorStore [StoreOp.claim 4 7 100, StoreOp.sweep 15 500]).posts :=
  retry_budget_policy.2.2.2.2
    { examplePost 1 with
      processing_status := Status.error
      attempts := some 3 }
    [StoreOp.claim 4 7 100, StoreOp.sweep 15 500] errorStore rfl
    (by intro op hop; fin_cases hop <;> trivial)
    (by simp [errorStore]) (by decide)

/-! ## C7: required-field validation across the decode stages -/

theorem stage1Check_sound (obj : PyVal) (r : ChallengeRec)
    (h : stage1Check obj = some (some r)) :
    r.goal ≠ "" ∧ r.topic_brief ≠ "" ∧ r.final_post ≠ "" := by
  cases obj with
  | pdict l =>
    simp only [stage1Check] at h
    split_ifs at h with hg
    · exact absurd (Option.some.inj h) (by simp)
    · have hr := Option.some.inj (Option.some.inj h)
      push_neg at hg
      clear h
      subst hr
      dsimp only
      exact hg
  | pnone => exact absurd h (by simp [stage1Check])
  | pbool b => exact absurd h (by simp [stage1Check])
  | pint n => exact absurd h (by simp [stage1Check])
  | pfloat q => exact absurd h (by simp [stage1Check])
  | pstr s => exact absurd h (by simp [stage1Check])
  | plist l => exact absurd h (by simp [stage1Check])

theorem stage1Scan_sound (L : List (List Char)) :
    ∀ (r : ChallengeRec), stage1Scan L = some (some r) →
      r.goal ≠ "" ∧ r.topic_brief ≠ "" ∧ r.final_post ≠ "" := by
  induction L with
  | nil => intro r h; exact absurd h (by simp [stage1Scan])
  | cons t rest ih =>
    intro r h
    rw [stage1Scan] at h
    cases hd : rawDecodeL t with
    | none =>
      rw [hd] at h
      exact ih r h
    | some pr =>
      rw [hd] at h
      obtain ⟨obj, idx⟩ := pr
      dsimp only at h
      cases hc : stage1Check obj with
      | none =>
        rw [hc] at h
        exact ih r h
      | some res =>
        rw [hc] at h
        simp only at h
        rw [Option.some.inj h] at hc
        exact stage1Check_sound obj r hc

theorem regexFallback_sound (t : List Char) (r : ChallengeRec)
    (h : regexFallback t = some r) :
    r.goal ≠ "" ∧ r.topic_brief ≠ "" ∧ r.final_post ≠ "" := by
  unfold regexFallback at h
  cases hg : searchKeyVal "goal" t with
  | none => rw [hg] at h; exact absurd h (by simp)
  | some goalRaw =>
    cases hb : searchKeyVal "topic_brief" t with
    | none => rw [hg, hb] at h; exact absurd h (by simp)
    | some briefRaw =>
      cases hf : searchKeyVal "final_post" t with
      | none => rw [hg, hb, hf] at h; exact absurd h (by simp)
      | some finalRaw =>
        rw [hg, hb, hf] at h
        dsimp only at h
        split_ifs at h with hempty
        have hr := Option.some.inj h
        push_neg at hempty
        clear h
        subst hr
        dsimp only
        exact hempty

theorem extract_stage_sound (t : List Char) (r : ChallengeRec)
    (h : (match stage1Scan (braceSuffixes t) with
          | some r0 => r0
          | none => regexFallback t) = some r) :
    r.goal ≠ "" ∧ r.topic_brief ≠ "" ∧ r.final_post ≠ "" := by
  cases hs : stage1Scan (braceSuffixes t) with
  | none =>
    rw [hs] at h
    exact regexFallback_sound t r h
  | some r0 =>
    rw [hs] at h
    simp only at h
    rw [h] at hs
    exact stage1Scan_sound _ r hs

/-- C7 counterexample: the judge's stage-1 scan
(`try_find_json_with_decoder`) accepts `"{}"` — a record missing every
required field — and the field-parse step then accepts it, defaulting the
missing fields (score 0, no reasons, no fallback tag), instead of treating
the half-filled record as a decode failure and moving to the next stage. -/
theorem stage1_accepts_halffilled_counterexample :
    try_find_json_with_decoder "\x7b\x7d" = some (PyVal.pdict []) ∧
    extract_or_recover_json "\x7b\x7d" = some (PyVal.pdict []) ∧
    (infer_item emptyJsonOracle exItem).reasons = [] ∧
    (infer_item emptyJsonOracle exItem).score = 0 ∧
    (infer_item emptyJsonOracle exItem).is_good = false := by
  exact ⟨rfl, rfl, rfl, by decide, rfl⟩

/-- C7 amended: the judge's decode stages perform no required-field
validation (as the counterexample shows); field validation lives in the
unified variant's `extract_json`, which never returns a half-filled
record: any record it returns has `goal`, `topic_brief` and `final_post`
non-empty — though a decoded-but-incomplete record makes `extract_json`
return `None` outright rather than falling through to its regex stage. -/
theorem extract_json_never_halffilled (text : String) (r : ChallengeRec)
    (h : extract_json text = some r) :
    r.goal ≠ "" ∧ r.topic_brief ≠ "" ∧ r.final_post ≠ "" := by
  unfold extract_json at h
  by_cases he : text = ""
  · rw [if_pos he] at h
    exact absurd h (by simp)
  · rw [if_neg he] at h
    exact extract_stage_sound _ r h

/-- Witness for C7 (amended): a complete record extracted from concrete
text indeed has its three required fields non-empty. -/
theorem extract_json_never_halffilled_witness :
    ({ week_goal := "", goal := "g", topic_brief := "b",
       final_post := "f" } : ChallengeRec).goal ≠ "" ∧
    ({ week_goal := "", goal := "g", topic_brief := "b",
       final_post := "f" } : ChallengeRec).topic_brief ≠ "" ∧
    ({ week_goal := "", goal := "g", topic_brief := "b",
       final_post := "f" } : ChallengeRec).final_post ≠ "" :=
  extract_json_never_halffilled
    "\x7b\"goal\": \"g\", \"topic_brief\": \"b\", \"final_post\": \"f\"\x7d"
    { week_goal := "", goal := "g", topic_brief := "b", final_post := "f" }
    (by rfl)

end EngageX
